import Mathlib

/-!
# Chat widget controller (`static/script.js`)

A shallow embedding of the browser-side chat script and the properties its
specification states about it.

The script's world is made explicit:

* `State` holds what the script reads and writes: the value of the
  `message-input` field, the children of the `chat-messages` element in
  document order, and the `fetch` calls made so far.
* Every element the script creates carries a `key`, the identity of the DOM
  node, so that two indicators with the same id can be told apart.
* The script does not escape the message text it interpolates into
  `innerHTML`, so a text with markup in it becomes elements of the page.  What
  the browser makes of markup is not part of the repository; it is the parameter
  `Browser`: elements that carry the id `typing-indicator`, elements whose name
  shadows a property of `document` or of a form, event handlers that run, and
  the markup that is left when an element inside a message is detached.  A
  text without `<` is only text: every browser leaves it inert (`Browser.plain`),
  and for such texts the embedding needs nothing else of the browser.
* The scroll position (`scrollTop = scrollHeight`) is layout state that no
  property below observes; it is left out of `State`.
* The listener is an `async` function with two `await`s.  `start`,
  `resumeFetch` and `resumeJson` are its three synchronous segments;
  `submitListener` runs them back to back (a run with nothing interleaved),
  `step` runs one segment at a time so that several invocations can overlap.
-/

namespace ChatWidget

/-! ## Values coming from the platform -/

/-- Errors a segment of the script can raise. -/
inductive JsError where
  | typeError
  | syntaxError
  | networkError
deriving DecidableEq, Repr

/-- A value passed as `message` to `appendMessage`: a string, `undefined`, or any
other value together with what interpolating it into a template literal gives
(`none` when that conversion raises a `TypeError`). -/
inductive JsValue where
  | undefined
  | str (s : String)
  | other (shown : Option String)
deriving DecidableEq, Repr

/-- The value `await response.json()` yields. -/
inductive Json where
  | null
  | object (fields : List (String × JsValue))
  | other
deriving DecidableEq, Repr

/-- Outcome of `response.json()`: it rejects on a body that is not JSON. -/
inductive Body where
  | unparsable
  | parsed (data : Json)
deriving DecidableEq, Repr

/-- What the script can observe of a `Response`. -/
structure Response where
  status : Nat
  body : Body
deriving DecidableEq, Repr

/-- Getter `response.ok`: the status is in the range 200 to 299. -/
def Response.ok (r : Response) : Bool :=
  decide (200 ≤ r.status) && decide (r.status ≤ 299)

/-- How the promise returned by `fetch` settles. -/
inductive FetchResult where
  | rejected
  | resolved (response : Response)
deriving DecidableEq, Repr

/-- One call of `fetch(url, init)`. -/
structure Request where
  url : String
  method : String
  headers : List (String × String)
  body : String
deriving DecidableEq, Repr

/-- A child of the `chat-messages` element.  `innerHTML` is the markup of its
content: what the script assigned, less what has been detached from it since. -/
structure Element where
  key : Nat
  id : String
  className : String
  innerHTML : String
deriving DecidableEq, Repr

/-- The part of the page the script reads and writes. -/
structure State where
  value : String
  children : List Element
  created : Nat
  requests : List Request
deriving DecidableEq, Repr

/-! ## Platform functions used by the script -/

/-- Code points `String.prototype.trim` strips: WhiteSpace and LineTerminator. -/
def isJsWhiteSpace (c : Char) : Bool :=
  let n := c.toNat
  n == 0x09 || n == 0x0A || n == 0x0B || n == 0x0C || n == 0x0D || n == 0x20 ||
  n == 0xA0 || n == 0x1680 || (decide (0x2000 ≤ n) && decide (n ≤ 0x200A)) ||
  n == 0x2028 || n == 0x2029 || n == 0x202F || n == 0x205F || n == 0x3000 || n == 0xFEFF

/-- Implements `String.prototype.trim`. -/
def jsTrim (s : String) : String :=
  ⟨((s.data.dropWhile isJsWhiteSpace).reverse.dropWhile isJsWhiteSpace).reverse⟩

/-- Lower-case hexadecimal digit. -/
def hexDigit (n : Nat) : Char :=
  if n < 10 then Char.ofNat (48 + n) else Char.ofNat (87 + n)

/-- One character of `QuoteJSONString`. -/
def quoteJSONChar (c : Char) : List Char :=
  let n := c.toNat
  if n = 0x08 then [Char.ofNat 92, 'b']
  else if n = 0x09 then [Char.ofNat 92, 't']
  else if n = 0x0A then [Char.ofNat 92, 'n']
  else if n = 0x0C then [Char.ofNat 92, 'f']
  else if n = 0x0D then [Char.ofNat 92, 'r']
  else if n = 0x22 then [Char.ofNat 92, Char.ofNat 34]
  else if n = 0x5C then [Char.ofNat 92, Char.ofNat 92]
  else if n < 0x20 then [Char.ofNat 92, 'u', '0', '0', hexDigit (n / 16), hexDigit (n % 16)]
  else [c]

/-- Implements `QuoteJSONString`: the JSON text of a string value. -/
def quoteJSONString (s : String) : String :=
  ⟨[Char.ofNat 34] ++ (s.data.map quoteJSONChar).flatten ++ [Char.ofNat 34]⟩

/-- Implements `JSON.stringify` on an object whose properties are all strings. -/
def jsonStringify (fields : List (String × String)) : String :=
  "\x7b" ++ ",".intercalate (fields.map fun kv => quoteJSONString kv.1 ++ ":" ++ quoteJSONString kv.2)
    ++ "\x7d"

/-- Value of a hexadecimal digit, as JSON admits it in a `\u` escape. -/
def hexValue (c : Char) : Option Nat :=
  let n := c.toNat
  if 48 ≤ n ∧ n ≤ 57 then some (n - 48)
  else if 97 ≤ n ∧ n ≤ 102 then some (n - 87)
  else if 65 ≤ n ∧ n ≤ 70 then some (n - 55)
  else none

/-- The character a two-character escape of the JSON grammar stands for. -/
def unescapeJSONChar (c : Char) : Option Char :=
  let n := c.toNat
  if n = 0x22 then some (Char.ofNat 0x22)
  else if n = 0x5C then some (Char.ofNat 0x5C)
  else if n = 0x2F then some (Char.ofNat 0x2F)
  else if c = 'b' then some (Char.ofNat 0x08)
  else if c = 'f' then some (Char.ofNat 0x0C)
  else if c = 'n' then some (Char.ofNat 0x0A)
  else if c = 'r' then some (Char.ofNat 0x0D)
  else if c = 't' then some (Char.ofNat 0x09)
  else none

/-- Reads the characters of a JSON string after its opening quote, up to the
closing quote, which must be the last character (the grammar of RFC 8259,
section 7: unescaped characters from U+0020 on, two-character escapes, and
`\u` with four hexadecimal digits).  The strings of this embedding are
sequences of Unicode scalar values, so an escaped surrogate code unit is not
read. -/
def readJSONChars : List Char → Option (List Char)
  | [] => none
  | c :: rest =>
    if c.toNat = 0x22 then (if rest = [] then some [] else none)
    else if c.toNat = 0x5C then
      match rest with
      | [] => none
      | e :: rest =>
        if e = 'u' then
          match rest with
          | a :: b :: c :: d :: rest =>
            match hexValue a, hexValue b, hexValue c, hexValue d with
            | some a, some b, some c, some d =>
              let n := ((a * 16 + b) * 16 + c) * 16 + d
              if 0xD800 ≤ n ∧ n ≤ 0xDFFF then none
              else (readJSONChars rest).map fun l => Char.ofNat n :: l
            | _, _, _, _ => none
          | _ => none
        else
          match unescapeJSONChar e with
          | some ch => (readJSONChars rest).map fun l => ch :: l
          | none => none
    else if c.toNat < 0x20 then none
    else (readJSONChars rest).map fun l => c :: l

/-- The string a JSON string literal denotes, as a JSON parser reads it; `none`
when the text is not one JSON string literal. -/
def readJSONString (text : String) : Option String :=
  match text.data with
  | [] => none
  | c :: rest => if c.toNat = 0x22 then (readJSONChars rest).map String.mk else none

/-- Interpolation of a value into a template literal. -/
def templateText : JsValue → Option String
  | .undefined => some "undefined"
  | .str s => some s
  | .other shown => shown

/-- Evaluates `data.response`: a `TypeError` on `null`, the property when the
object has it, `undefined` otherwise. -/
def Json.response : Json → Except JsError JsValue
  | .null => .error .typeError
  | .object fields => .ok ((fields.lookup "response").getD .undefined)
  | .other => .ok .undefined

/-- Record a call of `fetch(url, init)`. -/
def fetch (request : Request) (s : State) : State :=
  { s with requests := s.requests ++ [request] }

/-! ## The script -/

def typingIndicatorId : String := "typing-indicator"

def serverErrorText : String := "متاسفانه خطایی در سرور رخ داد. لطفا دوباره تلاش کنید."

def connectionErrorText : String := "خطا در برقراری ارتباط با سرور. آیا سرور در حال اجراست؟"

def greetingText : String :=
  "سلام! من دستیار هوشمند شما برای محصولات الکترونیکی هستم. سوال خود را بپرسید."

def botIcon : String :=
  "<img src=\"/static/chatbot-icon.png\" alt=\"AI Avatar\" class=\"w-full h-full rounded-full object-cover\">"

def userIcon : String :=
  "<svg xmlns=\"http://www.w3.org/2000/svg\" width=\"20\" height=\"20\" viewBox=\"0 0 24 24\" fill=\"none\" stroke=\"currentColor\" stroke-width=\"2\" stroke-linecap=\"round\" stroke-linejoin=\"round\"><path d=\"M19 21v-2a4 4 0 0 0-4-4H9a4 4 0 0 0-4 4v2\"/><circle cx=\"12\" cy=\"7\" r=\"4\"/></svg>"

/-- Template `iconContainer` of `appendMessage`. -/
def iconContainer (isUser : Bool) : String :=
  "\n        <div class=\"w-10 h-10 rounded-full flex-shrink-0 flex items-center justify-center "
    ++ (if isUser then "bg-blue-600" else "bg-gray-600") ++ " overflow-hidden\">\n            "
    ++ (if isUser then userIcon else botIcon) ++ "\n        </div>"

/-- Template `messageBubble` of `appendMessage`, around the interpolated text. -/
def messageBubble (isUser : Bool) (text : String) : String :=
  "\n        <div class=\"p-4 rounded-2xl max-w-md "
    ++ (if isUser then "bg-blue-600 rounded-br-none" else "bg-slate-700 rounded-bl-none")
    ++ "\">\n            <p>" ++ text ++ "</p>\n        </div>"

/-- Class name of a message container. -/
def containerClass (isUser : Bool) : String :=
  "flex items-start gap-4 " ++ (if isUser then "justify-end" else "")

/-- Markup of a message container. -/
def containerHTML (isUser : Bool) (text : String) : String :=
  if isUser then messageBubble isUser text ++ iconContainer isUser
  else iconContainer isUser ++ messageBubble isUser text

def typingHTML : String :=
  "\n        <div class=\"w-10 h-10 rounded-full flex-shrink-0 flex items-center justify-center bg-gray-600 overflow-hidden\">\n             <img src=\"/static/chatbot-icon.png\" alt=\"AI Avatar\" class=\"w-full h-full rounded-full object-cover\">\n        </div>\n        <div class=\"bg-slate-700 p-4 rounded-2xl rounded-bl-none max-w-md\">\n            <p class=\"animate-pulse\">در حال نوشتن...</p>\n        </div>"

/-! ## The browser -/

/-- Number of `<` characters in a string. -/
def tagOpens (s : String) : Nat :=
  s.data.count (Char.ofNat 60)

/-- What a browser makes of the markup `html` of a child of `chat-messages`, as
far as the script can tell:

* `ids html`: how many elements with id `typing-indicator` the markup creates;
* `trapped html`: the first of them is a form with a control named `remove`, so
  that its `remove` property is that control and calling it raises;
* `detach html`: the markup left once the first of them has been detached;
* `names html`: the names under which elements of the markup (`img`, `form`, ...
  with a `name`) shadow properties of `document` while they are attached;
* `onAttach html`: what the event handlers in the markup do to the page when the
  element is attached.

The markup the script writes itself is inert: a message whose text has no `<`,
and the typing placeholder, create no such element and run nothing. -/
structure Browser where
  ids : String → Nat
  trapped : String → Bool
  detach : String → String
  names : String → List String
  onAttach : String → State → State
  plain : ∀ (isUser : Bool) (text : String), tagOpens text = 0 →
    ids (containerHTML isUser text) = 0 ∧ names (containerHTML isUser text) = [] ∧
      ∀ s, onAttach (containerHTML isUser text) s = s
  typing : ids typingHTML = 0 ∧ names typingHTML = [] ∧ ∀ s, onAttach typingHTML s = s

/-- Markup a message text can carry: one empty element with the id of the
placeholder. -/
def indicatorTag : String := "<i id=\"typing-indicator\"></i>"

/-- Markup a message text can carry: a form with the id of the placeholder and a
control named `remove`. -/
def formTag : String := "<form id=\"typing-indicator\"><input name=\"remove\"></form>"

/-- Markup a message text can carry: an image named `createElement`. -/
def imageTag : String := "<img name=\"createElement\">"

/-- Markup a message text can carry: a frame whose `load` handler, run when the
frame is attached to the document, removes the first child of `chat-messages`. -/
def frameTag : String :=
  "<iframe onload=\"document.getElementById(\x27chat-messages\x27).firstElementChild.remove()\"></iframe>"

/-- The markup `html` is that of a message, of the user or of the bot, whose
text is `text`. -/
def isMessageOf (text : String) (html : String) : Bool :=
  html == containerHTML true text || html == containerHTML false text

set_option maxRecDepth 100000 in
/-- A browser as far as four message texts are concerned, whoever sends them:

* of the text `indicatorTag` it makes one element with id `typing-indicator`,
  which can be detached and leaves an empty paragraph;
* of `formTag` one such element whose `remove` is shadowed by its control;
* of `imageTag` an element that shadows `document.createElement`;
* of `frameTag` a frame whose handler removes the first child of
  `chat-messages` when the message is attached.

It finds nothing in any other markup. -/
def Browser.sample : Browser where
  ids html := if isMessageOf indicatorTag html || isMessageOf formTag html then 1 else 0
  trapped html := isMessageOf formTag html
  detach html :=
    if html = containerHTML true indicatorTag then containerHTML true ""
    else if html = containerHTML false indicatorTag then containerHTML false ""
    else html
  names html := if isMessageOf imageTag html then ["createElement"] else []
  onAttach html s := if isMessageOf frameTag html then { s with children := s.children.tail } else s
  plain isUser text h := by
    have happ : ∀ a b : String, tagOpens (a ++ b) = tagOpens a + tagOpens b := by
      intro a b; simp [tagOpens, String.data_append]
    have key : tagOpens (containerHTML isUser text) = if isUser then 10 else 7 := by
      have hempty : ∀ u, tagOpens (containerHTML u "") = if u then 10 else 7 := by decide
      have hsum : tagOpens (containerHTML isUser text) =
          tagOpens (containerHTML isUser "") + tagOpens text := by
        have hnil : tagOpens "" = 0 := rfl
        cases isUser <;>
          simp only [containerHTML, messageBubble, iconContainer, happ, Bool.false_eq_true,
            if_false, if_true] <;> omega
      rw [hsum, h, hempty]; rfl
    have hside : ∀ a b : String, containerHTML true a ≠ containerHTML false b := by
      intro a b e
      have e := congrArg (fun t : String => t.data.take 25) e
      simp only [containerHTML, messageBubble, iconContainer, if_true, Bool.false_eq_true,
        if_false, String.data_append, List.append_assoc] at e
      rw [List.take_append_of_le_length (by decide),
        List.take_append_of_le_length (by decide)] at e
      revert e
      decide
    have hno : ∀ tag : String,
        tagOpens (containerHTML true tag) ≠ 10 → tagOpens (containerHTML false tag) ≠ 7 →
        isMessageOf tag (containerHTML isUser text) = false := by
      intro tag h1 h2
      simp only [isMessageOf, Bool.or_eq_false_iff, beq_eq_false_iff_ne]
      cases isUser with
      | true =>
        refine ⟨fun e => h1 ?_, hside text tag⟩
        rw [← e, key]; rfl
      | false =>
        refine ⟨fun e => hside tag text e.symm, fun e => h2 ?_⟩
        rw [← e, key]; rfl
    have h1 := hno indicatorTag (by decide) (by decide)
    have h2 := hno formTag (by decide) (by decide)
    have h3 := hno imageTag (by decide) (by decide)
    have h4 := hno frameTag (by decide) (by decide)
    simp [h1, h2, h3, h4]
  typing := by
    have h1 : isMessageOf indicatorTag typingHTML = false := by decide
    have h2 : isMessageOf formTag typingHTML = false := by decide
    have h3 : isMessageOf imageTag typingHTML = false := by decide
    have h4 : isMessageOf frameTag typingHTML = false := by decide
    simp [h1, h2, h3, h4]

/-- Whether an attached element shadows the property `name` of `document`. -/
def shadowed (B : Browser) (name : String) (s : State) : Bool :=
  s.children.any fun el => (B.names el.innerHTML).contains name

/-- Create a detached `div`: `document.createElement('div')`.  It raises when
`document.createElement` is shadowed. -/
def createElement (B : Browser) (s : State) : Except (JsError × State) (Element × State) :=
  if shadowed B "createElement" s then .error (.typeError, s)
  else .ok (⟨s.created, "", "", ""⟩, { s with created := s.created + 1 })

/-- Attach an element as last child: `chatMessages.appendChild(el)`. -/
def appendChild (B : Browser) (el : Element) (s : State) : State :=
  B.onAttach el.innerHTML { s with children := s.children ++ [el] }

/-- What a lookup by id returns: a child of `chat-messages` itself, or the first
element with the id inside that child. -/
inductive Found where
  | child (el : Element)
  | inside (el : Element)
deriving DecidableEq, Repr

/-- Whether the element or one of its descendants carries the id. -/
def Element.holds (B : Browser) (id : String) (el : Element) : Bool :=
  el.id == id || (id == typingIndicatorId && B.ids el.innerHTML != 0)

/-- Look an element up by id: `document.getElementById(id)`, the first match in
document order (an element comes before its descendants).  It raises when
`document.getElementById` is shadowed. -/
def getElementById (B : Browser) (id : String) (s : State) : Except JsError (Option Found) :=
  if shadowed B "getElementById" s then .error .typeError
  else .ok ((s.children.find? (Element.holds B id)).map fun el =>
    if el.id == id then .child el else .inside el)

/-- Replace the first occurrence of `old` by `new`. -/
def replaceFirst (old new : Element) : List Element → List Element
  | [] => []
  | x :: xs => if x = old then new :: xs else x :: replaceFirst old new xs

/-- Detach the element found: `el.remove()`.  A child leaves the list.  An element
inside a child leaves that child, whose content changes; when its `remove` is
shadowed the call raises. -/
def Found.remove (B : Browser) (f : Found) (s : State) : Except JsError State :=
  match f with
  | .child el => .ok { s with children := s.children.erase el }
  | .inside el =>
    if B.trapped el.innerHTML then .error .typeError
    else .ok { s with
      children := replaceFirst el { el with innerHTML := B.detach el.innerHTML } s.children }

/-- Lines 9–30, `appendMessage(sender, message)`.  It raises when
`document.createElement` is shadowed, or when the interpolation of `message`
raises, after the container has been created and before it is attached. -/
def appendMessage (B : Browser) (sender : String) (message : JsValue) (s : State) :
    Except (JsError × State) State :=
  let isUser := sender == "user"
  match createElement B s with
  | .error err => .error err
  | .ok (messageContainer, s) =>
    let messageContainer := { messageContainer with className := containerClass isUser }
    match templateText message with
    | none => .error (.typeError, s)
    | some text =>
      let messageContainer := { messageContainer with innerHTML := containerHTML isUser text }
      .ok (appendChild B messageContainer s)

/-- Lines 32–49, `showTypingIndicator()`. -/
def showTypingIndicator (B : Browser) (s : State) : Except (JsError × State) State :=
  match createElement B s with
  | .error err => .error err
  | .ok (typingDiv, s) =>
    let typingDiv := { typingDiv with id := typingIndicatorId }
    let typingDiv := { typingDiv with className := "flex items-start gap-4" }
    let typingDiv := { typingDiv with innerHTML := typingHTML }
    .ok (appendChild B typingDiv s)

/-- Line 67, `document.getElementById('typing-indicator').remove()`: it raises
when the lookup raises, when it finds nothing, or when `remove` raises. -/
def removeIndicator (B : Browser) (s : State) : Except (JsError × State) State :=
  match getElementById B typingIndicatorId s with
  | .error e => .error (e, s)
  | .ok none => .error (.typeError, s)
  | .ok (some el) =>
    match el.remove B s with
    | .error e => .error (e, s)
    | .ok s => .ok s

/-- Line 78, `document.getElementById('typing-indicator')?.remove()`: finding
nothing is not an error. -/
def removeIndicatorIfAny (B : Browser) (s : State) : Except (JsError × State) State :=
  match getElementById B typingIndicatorId s with
  | .error e => .error (e, s)
  | .ok none => .ok s
  | .ok (some el) =>
    match el.remove B s with
    | .error e => .error (e, s)
    | .ok s => .ok s

/-- Where an invocation of the submit listener stands after a segment. -/
inductive Control where
  | returned (s : State)
  | threw (e : JsError) (s : State)
  | awaitFetch (s : State)
  | awaitJson (body : Body) (s : State)
deriving DecidableEq, Repr

/-- The request of lines 61–65. -/
def chatRequest (userMessage : String) : Request :=
  { url := "/chat"
    method := "POST"
    headers := [("Content-Type", "application/json")]
    body := jsonStringify [("message", userMessage)] }

/-- Lines 77–80, the `catch` block.  What raises here leaves the listener. -/
def catchBlock (B : Browser) (s : State) : Control :=
  match removeIndicatorIfAny B s with
  | .error (e, s) => .threw e s
  | .ok s =>
    match appendMessage B "bot" (.str connectionErrorText) s with
    | .ok s => .returned s
    | .error (e, s) => .threw e s

/-- An error raised inside the `try` block enters the `catch` block with the
state reached when it was raised. -/
def withCatch (B : Browser) (attempt : Except (JsError × State) Control) : Control :=
  match attempt with
  | .ok c => c
  | .error (_, s) => catchBlock B s

/-- Lines 52–65: from the submit event to the suspension on `fetch`.
(`e.preventDefault()` acts on the event only.)  Lines 56–58 are outside the
`try`: what raises there leaves the listener. -/
def start (B : Browser) (s : State) : Control :=
  let userMessage := jsTrim s.value
  if userMessage = "" then .returned s
  else
    match appendMessage B "user" (.str userMessage) s with
    | .error (e, s) => .threw e s
    | .ok s =>
      let s := { s with value := "" }
      match showTypingIndicator B s with
      | .error (e, s) => .threw e s
      | .ok s => .awaitFetch (fetch (chatRequest userMessage) s)

/-- Lines 67–74 inside the `try`: after `fetch` has resolved. -/
def afterFetch (B : Browser) (response : Response) (s : State) :
    Except (JsError × State) Control :=
  match removeIndicator B s with
  | .error err => .error err
  | .ok s =>
    if !response.ok then
      match appendMessage B "bot" (.str serverErrorText) s with
      | .ok s => .ok (.returned s)
      | .error err => .error err
    else .ok (.awaitJson response.body s)

/-- Lines 61–74: the listener resumes when `fetch` settles. -/
def resumeFetch (B : Browser) (result : FetchResult) (s : State) : Control :=
  withCatch B <|
    match result with
    | .rejected => .error (.networkError, s)
    | .resolved response => afterFetch B response s

/-- Lines 74–75 inside the `try`: after `response.json()` has settled. -/
def afterJson (B : Browser) (body : Body) (s : State) : Except (JsError × State) Control :=
  match body with
  | .unparsable => .error (.syntaxError, s)
  | .parsed data =>
    match data.response with
    | .error e => .error (e, s)
    | .ok v =>
      match appendMessage B "bot" v s with
      | .ok s => .ok (.returned s)
      | .error err => .error err

/-- Lines 74–80: the listener resumes when `response.json()` settles. -/
def resumeJson (B : Browser) (body : Body) (s : State) : Control :=
  withCatch B (afterJson B body s)

/-- Lines 51–81: one invocation of the submit listener run to its end with
nothing interleaved, `fetch` settling as `result`. -/
def submitListener (B : Browser) (result : FetchResult) (s : State) : Control :=
  match start B s with
  | .awaitFetch s =>
    match resumeFetch B result s with
    | .awaitJson body s => resumeJson B body s
    | c => c
  | c => c

/-- Lines 83–85, the load listener. -/
def loadListener (B : Browser) (s : State) : Control :=
  match appendMessage B "bot" (.str greetingText) s with
  | .ok s => .returned s
  | .error (e, s) => .threw e s

/-! ## Observations -/

/-- Children of `chat-messages` carrying the id `typing-indicator`, in document
order: the placeholders `showTypingIndicator` attached. -/
def indicators (s : State) : List Element :=
  s.children.filter fun el => el.id == typingIndicatorId

/-- Number of elements with id `typing-indicator` in the document. -/
def indicatorCount (B : Browser) (s : State) : Nat :=
  (s.children.map fun el =>
    (if el.id == typingIndicatorId then 1 else 0) + B.ids el.innerHTML).sum

/-- The message list: the children that are not typing indicators. -/
def messages (s : State) : List Element :=
  s.children.filter fun el => !(el.id == typingIndicatorId)

/-- A message as it sits in the list: class name and content of its container. -/
def rendered (el : Element) : String × String :=
  (el.className, el.innerHTML)

/-- What `appendMessage(sender, text)` renders. -/
def bubble (sender : String) (text : String) : String × String :=
  (containerClass (sender == "user"), containerHTML (sender == "user") text)

/-- The message list as rendered. -/
def messageList (s : State) : List (String × String) :=
  (messages s).map rendered

/-- The state with one more message, as `appendMessage(sender, text)` leaves it
when nothing raises and no handler runs. -/
def State.push (s : State) (sender : String) (text : String) : State :=
  { s with
    children := s.children ++
      [⟨s.created, "", containerClass (sender == "user"), containerHTML (sender == "user") text⟩]
    created := s.created + 1 }

/-- The state with one more typing placeholder. -/
def State.showing (s : State) : State :=
  { s with
    children := s.children ++
      [⟨s.created, typingIndicatorId, "flex items-start gap-4", typingHTML⟩]
    created := s.created + 1 }

/-- An element the script wrote from a text without `<`, or a typing placeholder. -/
def Element.plain (el : Element) : Prop :=
  (∃ (isUser : Bool) (text : String), tagOpens text = 0 ∧
    el.innerHTML = containerHTML isUser text) ∨ el.innerHTML = typingHTML

/-- A chat in which every element was written by the script from a text
without `<`. -/
def Plain (s : State) : Prop :=
  ∀ el ∈ s.children, el.plain

/-- The state a segment leaves behind. -/
def Control.state : Control → State
  | .returned s => s
  | .threw _ s => s
  | .awaitFetch s => s
  | .awaitJson _ s => s

/-- The state without its first typing placeholder, if it has one. -/
def dropIndicator (s : State) : State :=
  match s.children.find? fun el => el.id == typingIndicatorId with
  | some el => { s with children := s.children.erase el }
  | none => s

/-- The text of the bot message once `response.json()` has settled: the
`response` property as the template renders it, or the connection-error text
when reading it raised. -/
def replyText (body : Body) : String :=
  match body with
  | .unparsable => connectionErrorText
  | .parsed data =>
    match data.response with
    | .error _ => connectionErrorText
    | .ok v => (templateText v).getD connectionErrorText

/-- The text of the bot message a settled request leads to. -/
def botReply : FetchResult → String
  | .rejected => connectionErrorText
  | .resolved r => if r.ok then replyText r.body else serverErrorText

/-- An empty chat with `value` typed into the input field. -/
def typed (value : String) : State :=
  { value := value, children := [], created := 0, requests := [] }

/-! ## Overlapping invocations -/

/-- The `await` an invocation of the listener is suspended on. -/
inductive Phase where
  | fetching
  | parsing (body : Body)
deriving DecidableEq, Repr

/-- A suspended invocation of the submit listener: its number, the key of the
element its `showTypingIndicator` call created, and where it waits. -/
structure Handler where
  hid : Nat
  indicator : Nat
  phase : Phase
deriving DecidableEq, Repr

/-- The page: the state the script acts on and the invocations waiting to resume. -/
structure Page where
  dom : State
  suspended : List Handler
  started : Nat
deriving DecidableEq, Repr

/-- The page before any listener has run. -/
def Page.initial : Page :=
  { dom := { value := "", children := [], created := 0, requests := [] }
    suspended := []
    started := 0 }

/-- What the event loop can deliver to the script. -/
inductive Event where
  | load
  | submit (value : String)
  | fetchSettles (hid : Nat) (result : FetchResult)
  | jsonSettles (hid : Nat)
deriving DecidableEq, Repr

/-- Put an invocation back among the suspended ones, or drop it when it is over. -/
def park (c : Control) (h : Handler) (others : List Handler) (started : Nat) : Page :=
  match c with
  | .returned s => { dom := s, suspended := others, started := started }
  | .threw _ s => { dom := s, suspended := others, started := started }
  | .awaitFetch s =>
    { dom := s, suspended := others ++ [{ h with phase := .fetching }], started := started }
  | .awaitJson body s =>
    { dom := s, suspended := others ++ [{ h with phase := .parsing body }], started := started }

/-- One turn of the event loop.  `submit value` is the user submitting the form
with `value` in the input field; a settlement is delivered only to an invocation
that is suspended on it. -/
def step (B : Browser) (ev : Event) (p : Page) : Option Page :=
  match ev with
  | .load =>
    match loadListener B p.dom with
    | .returned s => some { p with dom := s }
    | .threw _ s => some { p with dom := s }
    | _ => none
  | .submit value =>
    let c := start B { p.dom with value := value }
    let h : Handler := { hid := p.started, indicator := p.dom.created + 1, phase := .fetching }
    some (park c h p.suspended (p.started + 1))
  | .fetchSettles hid result =>
    match p.suspended.find? fun h => h.hid == hid && h.phase == .fetching with
    | none => none
    | some h => some (park (resumeFetch B result p.dom) h (p.suspended.erase h) p.started)
  | .jsonSettles hid =>
    match p.suspended.find? fun h => h.hid == hid && h.phase != .fetching with
    | none => none
    | some h =>
      match h.phase with
      | .fetching => none
      | .parsing body =>
        some (park (resumeJson B body p.dom) h (p.suspended.erase h) p.started)

/-- Run a sequence of events; `none` when one of them cannot be delivered. -/
def exec (B : Browser) : List Event → Page → Option Page
  | [], p => some p
  | ev :: evs, p => (step B ev p).bind (exec B evs)

/-- As `step`, but the form is submitted only while no invocation is suspended. -/
def stepSerial (B : Browser) (ev : Event) (p : Page) : Option Page :=
  match ev with
  | .submit _ => if p.suspended.isEmpty then step B ev p else none
  | _ => step B ev p

/-- Run a sequence of events in which submissions never overlap. -/
def execSerial (B : Browser) : List Event → Page → Option Page
  | [], p => some p
  | ev :: evs, p => (stepSerial B ev p).bind (execSerial B evs)

/-- Invocations still waiting for their response. -/
def awaitingResponse (p : Page) : List Handler :=
  p.suspended.filter fun h => h.phase == .fetching

/-- The shape of a page in a run without overlapping submissions: nothing is
suspended and no indicator is in the document, or one invocation waits for its
response and the only indicator is the element it created, or one invocation
waits for `response.json()` and no indicator is in the document. -/
def Serial (p : Page) : Prop :=
  (p.suspended = [] ∧ indicators p.dom = []) ∨
  (∃ h, p.suspended = [h] ∧ h.phase = .fetching ∧
    (indicators p.dom).map (·.key) = [h.indicator]) ∨
  (∃ h body, p.suspended = [h] ∧ h.phase = .parsing body ∧ indicators p.dom = [])

/-- The texts an event makes the script write have no `<`: the text of a
submitted message, and the text of the reply a settled request leads to. -/
def Event.plain : Event → Prop
  | .submit value => tagOpens (jsTrim value) = 0
  | .fetchSettles _ result => tagOpens (botReply result) = 0
  | _ => True

/-- The replies still being read have no `<`. -/
def Page.repliesPlain (p : Page) : Prop :=
  ∀ h ∈ p.suspended, ∀ body, h.phase = .parsing body → tagOpens (replyText body) = 0

/-- What holds of every page reached while every text is without `<`: the chat
is plain, so are the replies still being read, and the placeholders are at most
as many as the invocations waiting for their response. -/
def Within (p : Page) : Prop :=
  Plain p.dom ∧ p.repliesPlain ∧ (indicators p.dom).length ≤ (awaitingResponse p).length

/-- What holds of every page reached without overlapping submissions while
every text is without `<`. -/
def SerialWithin (p : Page) : Prop :=
  Serial p ∧ Plain p.dom ∧ p.repliesPlain

/-! # Proofs -/

/-! ## Lists -/

theorem filter_erase_of_find {α : Type} [DecidableEq α] (q : α → Bool) (a : α) (l : List α)
    (h : l.find? q = some a) : (l.erase a).filter q = (l.filter q).tail := by
  induction l with
  | nil => simp at h
  | cons b t ih =>
    by_cases hb : q b = true
    · have : b = a := by simpa [List.find?, hb] using h
      subst this
      simp [hb]
    · have hb2 : q b = false := by simpa using hb
      have ht : t.find? q = some a := by simpa [List.find?, hb2] using h
      have hqa : q a = true := List.find?_some ht
      have hne : b ≠ a := by
        intro e; subst e; simp [hqa] at hb2
      simp [List.erase_cons_tail, hne, hb2, ih ht]

theorem filter_length_erase {α : Type} [DecidableEq α] (q : α → Bool) (a : α) (l : List α)
    (hm : a ∈ l) (hq : q a = true) :
    ((l.erase a).filter q).length + 1 = (l.filter q).length := by
  have hp : (l.filter q).Perm ((a :: l.erase a).filter q) := (List.perm_cons_erase hm).filter q
  rw [hp.length_eq]
  simp [hq]

theorem filter_erase_of_false {α : Type} [DecidableEq α] (q : α → Bool) (a : α) (l : List α)
    (h : q a = false) : (l.erase a).filter q = l.filter q := by
  induction l with
  | nil => simp
  | cons b t ih =>
    by_cases hba : b = a
    · subst hba; simp [h]
    · simp [List.erase_cons_tail, hba, ih, List.filter_cons]

theorem tail_nil_of_map_singleton {α β : Type} (f : α → β) (l : List α) (b : β)
    (h : l.map f = [b]) : l.tail = [] := by
  cases l with
  | nil => rfl
  | cons a t =>
    cases t with
    | nil => rfl
    | cons c u => simp at h

theorem find_congr_mem {α : Type} (p q : α → Bool) (l : List α)
    (h : ∀ a ∈ l, p a = q a) : l.find? p = l.find? q := by
  induction l with
  | nil => rfl
  | cons b t ih =>
    have hb := h b (List.mem_cons_self _ _)
    have ht := ih (fun a ha => h a (List.mem_cons_of_mem _ ha))
    simp [List.find?, hb, ht]

theorem find_eq_head_filter {α : Type} (q : α → Bool) (l : List α) :
    l.find? q = (l.filter q).head? := by
  induction l with
  | nil => simp
  | cons b t ih =>
    by_cases hb : q b = true
    · simp [hb]
    · rw [List.find?_cons_of_neg _ hb, List.filter_cons_of_neg hb, ih]

/-! ## A plain chat -/

/-- The browser leaves a plain element inert. -/
theorem plain_inert (B : Browser) (el : Element) (h : el.plain) :
    B.ids el.innerHTML = 0 ∧ B.names el.innerHTML = [] ∧
      ∀ s, B.onAttach el.innerHTML s = s := by
  rcases h with ⟨isUser, text, ht, e⟩ | e
  · rw [e]; exact B.plain isUser text ht
  · rw [e]; exact B.typing

theorem shadowed_plain (B : Browser) (name : String) (s : State) (h : Plain s) :
    shadowed B name s = false := by
  simp only [shadowed, List.any_eq_false]
  intro el hel
  simp [(plain_inert B el (h el hel)).2.1]

theorem createElement_plain (B : Browser) (s : State) (h : Plain s) :
    createElement B s = .ok (⟨s.created, "", "", ""⟩, { s with created := s.created + 1 }) := by
  simp [createElement, shadowed_plain B _ s h]

theorem getElementById_plain (B : Browser) (s : State) (h : Plain s) :
    getElementById B typingIndicatorId s =
      .ok ((s.children.find? fun el => el.id == typingIndicatorId).map .child) := by
  have hfind : s.children.find? (Element.holds B typingIndicatorId) =
      s.children.find? (fun el => el.id == typingIndicatorId) := by
    apply find_congr_mem
    intro el hel
    simp [Element.holds, (plain_inert B el (h el hel)).1]
  simp only [getElementById, shadowed_plain B _ s h, Bool.false_eq_true, if_false, hfind]
  cases hf : s.children.find? (fun el => el.id == typingIndicatorId) with
  | none => rfl
  | some el =>
    have : (el.id == typingIndicatorId) = true :=
      List.find?_some (p := fun el : Element => el.id == typingIndicatorId) hf
    simp only [Option.map_some', this, if_true]

/-- Line 78 in a plain chat: the first placeholder, if any, leaves. -/
theorem removeIndicatorIfAny_plain (B : Browser) (s : State) (h : Plain s) :
    removeIndicatorIfAny B s = .ok (dropIndicator s) := by
  simp only [removeIndicatorIfAny, getElementById_plain B s h, dropIndicator]
  cases s.children.find? (fun el => el.id == typingIndicatorId) <;> rfl

/-- Line 67 in a plain chat: it raises exactly when there is no placeholder. -/
theorem removeIndicator_plain (B : Browser) (s : State) (h : Plain s) :
    (indicators s = [] ∧ removeIndicator B s = .error (.typeError, s)) ∨
    (indicators s ≠ [] ∧ removeIndicator B s = .ok (dropIndicator s)) := by
  simp only [removeIndicator, getElementById_plain B s h, dropIndicator]
  have hh := find_eq_head_filter (fun el : Element => el.id == typingIndicatorId) s.children
  cases hf : s.children.find? (fun el => el.id == typingIndicatorId) with
  | none =>
    rw [hf] at hh
    exact Or.inl ⟨by simpa [indicators] using hh.symm, rfl⟩
  | some el =>
    rw [hf] at hh
    refine Or.inr ⟨?_, rfl⟩
    intro e
    simp [indicators] at e
    rw [List.filter_eq_nil_iff.mpr (by simpa using e)] at hh
    cases hh

theorem indicators_dropIndicator (s : State) :
    indicators (dropIndicator s) = (indicators s).tail := by
  unfold dropIndicator
  cases hf : s.children.find? (fun el => el.id == typingIndicatorId) with
  | none =>
    have hh := find_eq_head_filter (fun el : Element => el.id == typingIndicatorId) s.children
    rw [hf] at hh
    have : indicators s = [] := by simpa [indicators] using hh.symm
    simp [this]
  | some el => exact filter_erase_of_find _ el s.children hf

theorem messages_dropIndicator (s : State) : messages (dropIndicator s) = messages s := by
  unfold dropIndicator
  cases hf : s.children.find? (fun el => el.id == typingIndicatorId) with
  | none => rfl
  | some el =>
    have hq : (el.id == typingIndicatorId) = true :=
      List.find?_some (p := fun el : Element => el.id == typingIndicatorId) hf
    exact filter_erase_of_false (fun e : Element => !(e.id == typingIndicatorId)) el
      s.children (by simp [hq])

theorem dropIndicator_fields (s : State) :
    (dropIndicator s).requests = s.requests ∧ (dropIndicator s).value = s.value ∧
      (dropIndicator s).created = s.created := by
  unfold dropIndicator
  cases s.children.find? (fun el => el.id == typingIndicatorId) <;> exact ⟨rfl, rfl, rfl⟩

theorem plain_dropIndicator (s : State) (h : Plain s) : Plain (dropIndicator s) := by
  unfold dropIndicator
  cases s.children.find? (fun el => el.id == typingIndicatorId) with
  | none => exact h
  | some el => intro a ha; exact h a (List.mem_of_mem_erase ha)

/-- In a plain chat the elements with the id are the placeholders. -/
theorem indicatorCount_plain (B : Browser) (s : State) (h : Plain s) :
    indicatorCount B s = (indicators s).length := by
  unfold indicatorCount indicators
  have hall : ∀ el ∈ s.children, B.ids el.innerHTML = 0 :=
    fun el hel => (plain_inert B el (h el hel)).1
  revert hall
  generalize s.children = l
  intro hall
  induction l with
  | nil => rfl
  | cons a t ih =>
    have ha := hall a (List.mem_cons_self _ _)
    have ht := ih (fun el hel => hall el (List.mem_cons_of_mem _ hel))
    simp only [List.map_cons, List.sum_cons, ht, List.filter_cons, ha]
    cases a.id == typingIndicatorId <;> simp
    omega

/-! ## The building blocks of the script -/

theorem append_right_cancel (a b c : String) (h : a ++ c = b ++ c) : a = b := by
  have := congrArg String.data h
  simp only [String.data_append] at this
  exact String.ext (List.append_cancel_right this)

theorem append_left_cancel (a b c : String) (h : c ++ a = c ++ b) : a = b := by
  have := congrArg String.data h
  simp only [String.data_append] at this
  exact String.ext (List.append_cancel_left this)

/-- The markup of a message determines its text. -/
theorem containerHTML_injective (isUser : Bool) (a b : String)
    (h : containerHTML isUser a = containerHTML isUser b) : a = b := by
  have hb : messageBubble isUser a = messageBubble isUser b := by
    cases isUser
    · exact append_left_cancel _ _ _ (by simpa [containerHTML] using h)
    · exact append_right_cancel _ _ _ (by simpa [containerHTML] using h)
  unfold messageBubble at hb
  exact append_left_cancel _ _ _ (append_right_cancel _ _ _ hb)

/-- A rendered message determines its text. -/
theorem bubble_injective (sender : String) (a b : String)
    (h : bubble sender a = bubble sender b) : a = b :=
  containerHTML_injective _ a b (congrArg Prod.snd h)

/-- A user message is never rendered as a bot message. -/
theorem bubble_user_ne_bot (a b : String) : bubble "user" a ≠ bubble "bot" b := by
  intro h
  have hc : containerClass ("user" == "user") = containerClass ("bot" == "user") :=
    congrArg Prod.fst h
  revert hc
  decide


theorem connectionError_plain : tagOpens connectionErrorText = 0 := by decide

theorem serverError_plain : tagOpens serverErrorText = 0 := by decide

theorem greeting_plain : tagOpens greetingText = 0 := by decide

theorem plain_push (s : State) (sender text : String) (h : Plain s) (ht : tagOpens text = 0) :
    Plain (s.push sender text) := by
  intro el hel
  simp only [State.push, List.mem_append, List.mem_singleton] at hel
  rcases hel with hel | hel
  · exact h el hel
  · rw [hel]; exact Or.inl ⟨_, text, ht, rfl⟩

theorem plain_showing (s : State) (h : Plain s) : Plain s.showing := by
  intro el hel
  simp only [State.showing, List.mem_append, List.mem_singleton] at hel
  rcases hel with hel | hel
  · exact h el hel
  · rw [hel]; exact Or.inr rfl

/-- What one more message changes. -/
theorem push_spec (s : State) (sender text : String) :
    messages (s.push sender text) = messages s ++
        [⟨s.created, "", containerClass (sender == "user"),
          containerHTML (sender == "user") text⟩] ∧
      messageList (s.push sender text) = messageList s ++ [bubble sender text] ∧
      indicators (s.push sender text) = indicators s ∧
      (s.push sender text).requests = s.requests ∧ (s.push sender text).value = s.value := by
  refine ⟨?_, ?_, ?_, rfl, rfl⟩ <;>
  simp [State.push, messageList, messages, indicators, rendered, bubble, List.filter_append,
    typingIndicatorId]

/-- What one more placeholder changes. -/
theorem showing_spec (s : State) :
    messages s.showing = messages s ∧
      indicators s.showing = indicators s ++
        [⟨s.created, typingIndicatorId, "flex items-start gap-4", typingHTML⟩] ∧
      s.showing.requests = s.requests ∧ s.showing.value = s.value := by
  refine ⟨?_, ?_, rfl, rfl⟩ <;>
  simp [State.showing, messages, indicators, List.filter_append, typingIndicatorId]

/-- `appendMessage` in a plain chat, with a text without `<`. -/
theorem appendMessage_plain (B : Browser) (sender : String) (v : JsValue) (text : String)
    (s : State) (h : Plain s) (hv : templateText v = some text) (ht : tagOpens text = 0) :
    appendMessage B sender v s = .ok (s.push sender text) := by
  have hon := (B.plain (sender == "user") text ht).2.2
  simp [appendMessage, createElement_plain B s h, hv, appendChild, hon, State.push]

/-- `appendMessage` in a plain chat, when the interpolation raises. -/
theorem appendMessage_raises (B : Browser) (sender : String) (v : JsValue) (s : State)
    (h : Plain s) (hv : templateText v = none) :
    appendMessage B sender v s = .error (.typeError, { s with created := s.created + 1 }) := by
  simp [appendMessage, createElement_plain B s h, hv]

theorem showTypingIndicator_plain (B : Browser) (s : State) (h : Plain s) :
    showTypingIndicator B s = .ok s.showing := by
  simp [showTypingIndicator, createElement_plain B s h, appendChild, B.typing.2.2,
    State.showing]

/-- The `catch` block in a plain chat: the first placeholder leaves, if there is
one, the connection-error message is appended, and the listener returns. -/
theorem catchBlock_plain (B : Browser) (s : State) (h : Plain s) :
    catchBlock B s = .returned ((dropIndicator s).push "bot" connectionErrorText) := by
  simp [catchBlock, removeIndicatorIfAny_plain B s h,
    appendMessage_plain B "bot" (.str connectionErrorText) connectionErrorText _
      (plain_dropIndicator s h) rfl connectionError_plain]

theorem start_blank (B : Browser) (s : State) (h : jsTrim s.value = "") :
    start B s = .returned s := by
  simp [start, h]

/-- From a submit with a non-blank text without `<`, in a plain chat, to the
suspension on `fetch`. -/
theorem start_plain (B : Browser) (s : State) (hp : Plain s) (h : jsTrim s.value ≠ "")
    (ht : tagOpens (jsTrim s.value) = 0) :
    start B s = .awaitFetch (fetch (chatRequest (jsTrim s.value))
      ({ s.push "user" (jsTrim s.value) with value := "" } : State).showing) := by
  have ha := appendMessage_plain B "user" (.str (jsTrim s.value)) (jsTrim s.value) s hp rfl ht
  have hp2 : Plain ({ s.push "user" (jsTrim s.value) with value := "" } : State) :=
    plain_push s "user" _ hp ht
  simp [start, h, ha, showTypingIndicator_plain B _ hp2]

/-- The fetch segment in a plain chat. -/
theorem resumeFetch_plain (B : Browser) (result : FetchResult) (s : State) (h : Plain s) :
    (resumeFetch B result s =
        .returned ((dropIndicator s).push "bot"
          (if indicators s = [] then connectionErrorText else botReply result)) ∧
      (result = .rejected ∨ indicators s = [] ∨ ∃ r, result = .resolved r ∧ r.ok = false)) ∨
    (∃ r, result = .resolved r ∧ r.ok = true ∧ indicators s ≠ [] ∧
        resumeFetch B result s = .awaitJson r.body (dropIndicator s)) := by
  have hc := catchBlock_plain B s h
  cases result with
  | rejected =>
    refine Or.inl ⟨?_, Or.inl rfl⟩
    have : (if indicators s = [] then connectionErrorText else botReply .rejected) =
        connectionErrorText := by split <;> rfl
    rw [this]
    simpa [resumeFetch, withCatch] using hc
  | resolved r =>
    rcases removeIndicator_plain B s h with ⟨hi, hr⟩ | ⟨hi, hr⟩
    · refine Or.inl ⟨?_, Or.inr (Or.inl hi)⟩
      simp [resumeFetch, withCatch, afterFetch, hr, hc, hi]
    · cases hok : r.ok with
      | false =>
        refine Or.inl ⟨?_, Or.inr (Or.inr ⟨r, rfl, hok⟩)⟩
        simp [resumeFetch, withCatch, afterFetch, hr, hok, hi, botReply,
          appendMessage_plain B "bot" (.str serverErrorText) serverErrorText _
            (plain_dropIndicator s h) rfl serverError_plain]
      | true =>
        exact Or.inr ⟨r, rfl, hok, hi, by simp [resumeFetch, withCatch, afterFetch, hr, hok]⟩

theorem dropIndicator_children_congr (s t : State) (h : t.children = s.children) :
    (dropIndicator t).children = (dropIndicator s).children := by
  simp only [dropIndicator, h]
  cases s.children.find? (fun el => el.id == typingIndicatorId) <;> simp [h]

theorem plain_of_children (s t : State) (h : t.children = s.children) (hs : Plain s) :
    Plain t := by
  intro el hel
  exact hs el (h ▸ hel)

/-- The json segment in a plain chat, when the reply has no `<`: the listener
returns with one more bot message, appended to the children it resumed with or,
when reading the reply raised, to those children less the first placeholder. -/
theorem resumeJson_plain (B : Browser) (body : Body) (s : State) (h : Plain s)
    (ht : tagOpens (replyText body) = 0) :
    ∃ mid : State, resumeJson B body s = .returned (mid.push "bot" (replyText body)) ∧
      (mid.children = s.children ∨ mid.children = (dropIndicator s).children) ∧
      mid.requests = s.requests ∧ mid.value = s.value := by
  have viaCatch : ∀ t : State, t.children = s.children →
      t.requests = s.requests → t.value = s.value →
      ∃ mid : State, catchBlock B t = .returned (mid.push "bot" connectionErrorText) ∧
        (mid.children = s.children ∨ mid.children = (dropIndicator s).children) ∧
        mid.requests = s.requests ∧ mid.value = s.value := by
    intro t h1 h3 h4
    have hpt : Plain t := plain_of_children s t h1 h
    exact ⟨dropIndicator t, catchBlock_plain B t hpt,
      Or.inr (dropIndicator_children_congr s t h1),
      by rw [(dropIndicator_fields t).1, h3], by rw [(dropIndicator_fields t).2.1, h4]⟩
  cases body with
  | unparsable =>
    simpa [resumeJson, afterJson, withCatch, replyText] using viaCatch s rfl rfl rfl
  | parsed data =>
    cases hd : data.response with
    | error e =>
      simpa [resumeJson, afterJson, withCatch, replyText, hd] using viaCatch s rfl rfl rfl
    | ok v =>
      cases hv : templateText v with
      | none =>
        have ha := appendMessage_raises B "bot" v s h hv
        simpa [resumeJson, afterJson, withCatch, replyText, hd, hv, ha] using
          viaCatch { s with created := s.created + 1 } rfl rfl rfl
      | some text =>
        have hrt : replyText (.parsed data) = text := by simp [replyText, hd, hv]
        rw [hrt] at ht ⊢
        have ha := appendMessage_plain B "bot" v text s h hv ht
        exact ⟨s, by simp [resumeJson, afterJson, withCatch, hd, ha], Or.inl rfl, rfl, rfl⟩

theorem loadListener_plain (B : Browser) (s : State) (h : Plain s) :
    loadListener B s = .returned (s.push "bot" greetingText) := by
  simp [loadListener,
    appendMessage_plain B "bot" (.str greetingText) greetingText s h rfl greeting_plain]

theorem park_dom (c : Control) (h : Handler) (others : List Handler) (n : Nat) :
    (park c h others n).dom = c.state := by
  cases c <;> rfl

/-! ## Steps of a page whose texts have no `<` -/

/-- The page a step leads to, case by case, when the chat is plain and the text
the step writes has no `<`. -/
theorem step_cases (B : Browser) (ev : Event) (p p' : Page) (h : step B ev p = some p')
    (hev : ev.plain) (hc : Plain p.dom) (hr : p.repliesPlain) :
    (ev = .load ∧ p' = { p with dom := p.dom.push "bot" greetingText }) ∨
    (∃ v, ev = .submit v ∧ jsTrim v = "" ∧
      p' = { dom := { p.dom with value := v }, suspended := p.suspended,
             started := p.started + 1 }) ∨
    (∃ v, ev = .submit v ∧ jsTrim v ≠ "" ∧ tagOpens (jsTrim v) = 0 ∧
      p' = { dom := fetch (chatRequest (jsTrim v))
               ({ ({ p.dom with value := v } : State).push "user" (jsTrim v) with
                    value := "" } : State).showing,
             suspended := p.suspended ++ [⟨p.started, p.dom.created + 1, .fetching⟩],
             started := p.started + 1 }) ∨
    (∃ hid result hd text, ev = .fetchSettles hid result ∧ hd ∈ p.suspended ∧ hd.hid = hid ∧
      hd.phase = .fetching ∧ tagOpens text = 0 ∧
      text = (if indicators p.dom = [] then connectionErrorText else botReply result) ∧
      (result = .rejected ∨ indicators p.dom = [] ∨ ∃ r, result = .resolved r ∧ r.ok = false) ∧
      resumeFetch B result p.dom = .returned ((dropIndicator p.dom).push "bot" text) ∧
      p' = { dom := (dropIndicator p.dom).push "bot" text,
             suspended := p.suspended.erase hd, started := p.started }) ∨
    (∃ hid r hd, ev = .fetchSettles hid (.resolved r) ∧ hd ∈ p.suspended ∧ hd.hid = hid ∧
      hd.phase = .fetching ∧ r.ok = true ∧ indicators p.dom ≠ [] ∧
      tagOpens (replyText r.body) = 0 ∧
      resumeFetch B (.resolved r) p.dom = .awaitJson r.body (dropIndicator p.dom) ∧
      p' = { dom := dropIndicator p.dom,
             suspended := p.suspended.erase hd ++ [{ hd with phase := .parsing r.body }],
             started := p.started }) ∨
    (∃ (hid : Nat) (hd : Handler) (body : Body) (mid : State), ev = .jsonSettles hid ∧ hd ∈ p.suspended ∧ hd.hid = hid ∧
      hd.phase = .parsing body ∧ tagOpens (replyText body) = 0 ∧
      (mid.children = p.dom.children ∨ mid.children = (dropIndicator p.dom).children) ∧
      mid.requests = p.dom.requests ∧ mid.value = p.dom.value ∧
      resumeJson B body p.dom = .returned (mid.push "bot" (replyText body)) ∧
      p' = { dom := mid.push "bot" (replyText body),
             suspended := p.suspended.erase hd, started := p.started }) := by
  cases ev with
  | load =>
    simp [step, loadListener_plain B p.dom hc] at h
    exact Or.inl ⟨rfl, h.symm⟩
  | submit value =>
    simp only [step, Option.some.injEq] at h
    by_cases hb : jsTrim value = ""
    · have hs := start_blank B { p.dom with value := value } hb
      rw [hs] at h
      exact Or.inr (Or.inl ⟨value, rfl, hb, h.symm⟩)
    · have hs := start_plain B { p.dom with value := value } hc hb hev
      rw [hs] at h
      exact Or.inr (Or.inr (Or.inl ⟨value, rfl, hb, hev, h.symm⟩))
  | fetchSettles hid result =>
    simp only [step] at h
    cases hf : p.suspended.find? (fun h => h.hid == hid && h.phase == .fetching) with
    | none => simp [hf] at h
    | some hd =>
      simp only [hf, Option.some.injEq] at h
      have hmem : hd ∈ p.suspended := List.mem_of_find?_eq_some hf
      have hq := List.find?_some (p := fun h : Handler => h.hid == hid && h.phase == .fetching) hf
      simp only [Bool.and_eq_true, beq_iff_eq] at hq
      rcases resumeFetch_plain B result p.dom hc with ⟨e, hcase⟩ | ⟨r, hres, hok, hi, e⟩
      · rw [e] at h
        refine Or.inr (Or.inr (Or.inr (Or.inl ⟨hid, result, hd, _, rfl, hmem, hq.1, hq.2, ?_,
          rfl, hcase, e, h.symm⟩)))
        split
        · exact connectionError_plain
        · exact hev
      · rw [e] at h
        subst hres
        refine Or.inr (Or.inr (Or.inr (Or.inr (Or.inl ⟨hid, r, hd, rfl, hmem, hq.1, hq.2, hok,
          hi, ?_, e, h.symm⟩))))
        have : botReply (.resolved r) = replyText r.body := by simp [botReply, hok]
        rw [← this]
        exact hev
  | jsonSettles hid =>
    simp only [step] at h
    cases hf : p.suspended.find? (fun h => h.hid == hid && h.phase != .fetching) with
    | none => simp [hf] at h
    | some hd =>
      simp only [hf] at h
      have hmem : hd ∈ p.suspended := List.mem_of_find?_eq_some hf
      have hq := List.find?_some (p := fun h : Handler => h.hid == hid && h.phase != .fetching) hf
      simp only [Bool.and_eq_true, beq_iff_eq] at hq
      cases hph : hd.phase with
      | fetching => simp [hph] at h
      | parsing body =>
        simp only [hph, Option.some.injEq] at h
        have ht := hr hd hmem body hph
        obtain ⟨mid, e, h1, h2, h3⟩ := resumeJson_plain B body p.dom hc ht
        rw [e] at h
        exact Or.inr (Or.inr (Or.inr (Or.inr (Or.inr
          ⟨hid, hd, body, mid, rfl, hmem, hq.1, hph, ht, h1, h2, h3, e, h.symm⟩))))

theorem messages_of_children (s t : State) (h : t.children = s.children) :
    messages t = messages s := by
  simp [messages, h]

theorem indicators_of_children (s t : State) (h : t.children = s.children) :
    indicators t = indicators s := by
  simp [indicators, h]

/-- A state that resumed with the children of `s`, or with them less the first
placeholder: its messages are those of `s`, its placeholders those of `s` or
their tail, and it is plain when `s` is. -/
theorem mid_spec (s mid : State)
    (h : mid.children = s.children ∨ mid.children = (dropIndicator s).children) :
    messages mid = messages s ∧
      (indicators mid = indicators s ∨ indicators mid = (indicators s).tail) ∧
      (Plain s → Plain mid) := by
  rcases h with h | h
  · exact ⟨messages_of_children s mid h, Or.inl (indicators_of_children s mid h),
      plain_of_children s mid h⟩
  · refine ⟨?_, Or.inr ?_, fun hs => plain_of_children _ mid h (plain_dropIndicator s hs)⟩
    · rw [messages_of_children _ mid h, messages_dropIndicator]
    · rw [indicators_of_children _ mid h, indicators_dropIndicator]

theorem repliesPlain_erase (dom dom' : State) (l : List Handler) (h : Handler)
    (n n' : Nat) (hr : Page.repliesPlain ⟨dom, l, n⟩) :
    Page.repliesPlain ⟨dom', l.erase h, n'⟩ := by
  intro x hx body hb
  exact hr x (List.mem_of_mem_erase hx) body hb

theorem step_within (B : Browser) (ev : Event) (p p' : Page) (h : step B ev p = some p')
    (hev : ev.plain) (inv : Within p) : Within p' := by
  obtain ⟨hc, hr, hle⟩ := inv
  rcases step_cases B ev p p' h hev hc hr with ⟨_, e⟩ | ⟨v, _, _, e⟩ | ⟨v, _, _, ht, e⟩ |
    ⟨hid, result, hd, text, _, hmem, _, hph, ht, _, _, _, e⟩ |
    ⟨hid, r, hd, _, hmem, _, hph, _, _, ht, _, e⟩ |
    ⟨hid, hd, body, mid, _, hmem, _, hph, ht, hmid, _, _, _, e⟩
  · subst e
    exact ⟨plain_push _ _ _ hc greeting_plain, hr,
      by simpa [awaitingResponse, (push_spec p.dom "bot" greetingText).2.2.1] using hle⟩
  · subst e
    exact ⟨hc, hr, by simpa [awaitingResponse, indicators] using hle⟩
  · subst e
    have hc1 : Plain ({ p.dom with value := v } : State) := hc
    have hc2 : Plain ({ ({ p.dom with value := v } : State).push "user" (jsTrim v) with
        value := "" } : State) := plain_push _ "user" _ hc1 ht
    refine ⟨plain_showing _ hc2, ?_, ?_⟩
    · intro x hx body hb
      simp only [List.mem_append, List.mem_singleton] at hx
      rcases hx with hx | hx
      · exact hr x hx body hb
      · rw [hx] at hb; cases hb
    · simp only [awaitingResponse] at hle
      simp [awaitingResponse, indicators, fetch, State.showing, State.push, List.filter_append,
        typingIndicatorId]
      simpa [indicators, typingIndicatorId] using hle
  · subst e
    have hq : (fun x : Handler => x.phase == .fetching) hd = true := by simp [hph]
    have hlen := filter_length_erase (fun x : Handler => x.phase == .fetching) hd
      p.suspended hmem hq
    simp only [awaitingResponse] at hle
    refine ⟨plain_push _ _ _ (plain_dropIndicator _ hc) ht,
      repliesPlain_erase p.dom _ p.suspended hd p.started _ hr, ?_⟩
    simp only [awaitingResponse, (push_spec _ "bot" text).2.2.1, indicators_dropIndicator,
      List.length_tail]
    omega
  · subst e
    have hq : (fun x : Handler => x.phase == .fetching) hd = true := by simp [hph]
    have hlen := filter_length_erase (fun x : Handler => x.phase == .fetching) hd
      p.suspended hmem hq
    simp only [awaitingResponse] at hle
    refine ⟨plain_dropIndicator _ hc, ?_, ?_⟩
    · intro x hx body hb
      simp only [List.mem_append, List.mem_singleton] at hx
      rcases hx with hx | hx
      · exact hr x (List.mem_of_mem_erase hx) body hb
      · rw [hx] at hb
        cases hb
        exact ht
    · simp only [awaitingResponse, indicators_dropIndicator, List.length_tail,
        List.filter_append, List.length_append]
      simp
      omega
  · subst e
    have hq : (fun x : Handler => x.phase == .fetching) hd = false := by simp [hph]
    have hsame := filter_erase_of_false (fun x : Handler => x.phase == .fetching) hd
      p.suspended hq
    simp only [awaitingResponse] at hle
    obtain ⟨_, hi, hpl⟩ := mid_spec p.dom mid hmid
    refine ⟨plain_push _ _ _ (hpl hc) ht,
      repliesPlain_erase p.dom _ p.suspended hd p.started _ hr, ?_⟩
    simp only [awaitingResponse, hsame, (push_spec mid "bot" (replyText body)).2.2.1]
    rcases hi with e | e
    · rw [e]; exact hle
    · rw [e, List.length_tail]; omega

theorem exec_within (B : Browser) (evs : List Event) (p p' : Page)
    (h : exec B evs p = some p') (hev : ∀ ev ∈ evs, ev.plain) (inv : Within p) :
    Within p' := by
  induction evs generalizing p with
  | nil => simp [exec] at h; subst h; exact inv
  | cons ev evs ih =>
    simp only [exec] at h
    cases hs : step B ev p with
    | none => simp [hs] at h
    | some q =>
      simp only [hs, Option.some_bind] at h
      exact ih q h (fun e he => hev e (List.mem_cons_of_mem _ he))
        (step_within B ev p q hs (hev ev (List.mem_cons_self _ _)) inv)

theorem within_initial : Within Page.initial := by
  refine ⟨?_, ?_, ?_⟩
  · intro el hel; simp [Page.initial] at hel
  · intro x hx; simp [Page.initial] at hx
  · simp [Page.initial, indicators, awaitingResponse]

/-- Every step of a plain page keeps the messages that were there, as they
were and in place, adds at most one, last, and adds a request only when it is a
submission. -/
theorem step_effect (B : Browser) (ev : Event) (p p' : Page) (h : step B ev p = some p')
    (hev : ev.plain) (hc : Plain p.dom) (hr : p.repliesPlain) :
    (∃ new, messages p'.dom = messages p.dom ++ new ∧ new.length ≤ 1) ∧
    (∀ v, ev = .submit v → jsTrim v ≠ "" →
      p'.dom.requests = p.dom.requests ++ [chatRequest (jsTrim v)]) ∧
    (∀ v, ev = .submit v → jsTrim v = "" → p'.dom.requests = p.dom.requests) ∧
    ((∀ v, ev ≠ .submit v) → p'.dom.requests = p.dom.requests) := by
  rcases step_cases B ev p p' h hev hc hr with ⟨e0, e⟩ | ⟨v, e0, hb, e⟩ | ⟨v, e0, hb, ht, e⟩ |
    ⟨hid, result, hd, text, e0, hmem, _, hph, ht, _, _, _, e⟩ |
    ⟨hid, r, hd, e0, hmem, _, hph, _, _, ht, _, e⟩ |
    ⟨hid, hd, body, mid, e0, hmem, _, hph, ht, hmid, hreq, _, _, e⟩
  · subst e e0
    refine ⟨⟨_, (push_spec p.dom "bot" greetingText).1, by simp⟩, ?_, ?_, fun _ => rfl⟩ <;>
      intro v hv <;> cases hv
  · subst e e0
    refine ⟨⟨[], by simp [messages], by simp⟩, ?_, fun _ _ _ => rfl, fun hn => absurd rfl (hn v)⟩
    intro w hw hne
    cases hw
    exact absurd hb hne
  · subst e e0
    have hm := (push_spec ({ p.dom with value := v } : State) "user" (jsTrim v)).1
    refine ⟨⟨_, ((showing_spec _).1.trans hm), by simp⟩, ?_, ?_, fun hn => absurd rfl (hn v)⟩
    · intro w hw _
      cases hw
      rfl
    · intro w hw hne
      cases hw
      exact absurd hne hb
  · subst e e0
    have hm := (push_spec (dropIndicator p.dom) "bot" text).1
    rw [messages_dropIndicator] at hm
    refine ⟨⟨_, hm, by simp⟩, ?_, ?_, fun _ => ?_⟩
    · intro v hv; cases hv
    · intro v hv; cases hv
    · show (State.push _ _ _).requests = _
      rw [(push_spec _ "bot" text).2.2.2.1, (dropIndicator_fields p.dom).1]
  · subst e e0
    refine ⟨⟨[], by simp [messages_dropIndicator], by simp⟩, ?_, ?_,
      fun _ => (dropIndicator_fields p.dom).1⟩ <;>
      intro v hv <;> cases hv
  · subst e e0
    have hm := (push_spec mid "bot" (replyText body)).1
    rw [(mid_spec p.dom mid hmid).1] at hm
    refine ⟨⟨_, hm, by simp⟩, ?_, ?_, fun _ => ?_⟩
    · intro v hv; cases hv
    · intro v hv; cases hv
    · show (State.push _ _ _).requests = _
      rw [(push_spec mid "bot" (replyText body)).2.2.2.1, hreq]

/-! ## Runs without overlapping submissions -/

theorem stepSerial_step (B : Browser) (ev : Event) (p p' : Page)
    (h : stepSerial B ev p = some p') :
    step B ev p = some p' ∧ ∀ v, ev = .submit v → p.suspended = [] := by
  cases ev with
  | submit value =>
    simp only [stepSerial] at h
    by_cases he : p.suspended.isEmpty = true
    · simp only [he, if_true] at h
      exact ⟨h, fun _ _ => by simpa using he⟩
    · simp [he] at h
  | load => exact ⟨h, fun v hv => by cases hv⟩
  | fetchSettles hid result => exact ⟨h, fun v hv => by cases hv⟩
  | jsonSettles hid => exact ⟨h, fun v hv => by cases hv⟩

theorem execSerial_exec (B : Browser) (evs : List Event) (p p' : Page)
    (h : execSerial B evs p = some p') : exec B evs p = some p' := by
  induction evs generalizing p with
  | nil => simpa [execSerial, exec] using h
  | cons ev evs ih =>
    simp only [execSerial] at h
    cases hs : stepSerial B ev p with
    | none => simp [hs] at h
    | some q =>
      simp only [hs, Option.some_bind] at h
      simp only [exec, (stepSerial_step B ev p q hs).1, Option.some_bind]
      exact ih q h

theorem serial_no_indicator (p : Page) (h : Serial p) (hs : p.suspended = []) :
    indicators p.dom = [] := by
  rcases h with ⟨_, i⟩ | ⟨x, i, _⟩ | ⟨x, b, i, _⟩
  · exact i
  · rw [hs] at i; cases i
  · rw [hs] at i; cases i

/-- In a run without overlapping submissions, an invocation that waits for its
response is the only one suspended and the only placeholder is its own. -/
theorem serial_fetching (p : Page) (h : Serial p) (hd : Handler) (hmem : hd ∈ p.suspended)
    (hph : hd.phase = .fetching) :
    p.suspended = [hd] ∧ (indicators p.dom).map (·.key) = [hd.indicator] := by
  rcases h with ⟨i, _⟩ | ⟨x, i, j, k⟩ | ⟨x, b, i, j, _⟩
  · rw [i] at hmem; cases hmem
  · have hx : hd = x := by rw [i] at hmem; simpa using hmem
    subst hx
    exact ⟨i, k⟩
  · have hx : hd = x := by rw [i] at hmem; simpa using hmem
    subst hx
    rw [j] at hph
    cases hph

/-- In a run without overlapping submissions, an invocation that waits for
`response.json()` is the only one suspended and no placeholder is in the
document. -/
theorem serial_parsing (p : Page) (h : Serial p) (hd : Handler) (hmem : hd ∈ p.suspended)
    (body : Body) (hph : hd.phase = .parsing body) :
    p.suspended = [hd] ∧ indicators p.dom = [] := by
  rcases h with ⟨i, _⟩ | ⟨x, i, j, _⟩ | ⟨x, b, i, j, k⟩
  · rw [i] at hmem; cases hmem
  · have hx : hd = x := by rw [i] at hmem; simpa using hmem
    subst hx
    rw [j] at hph
    cases hph
  · have hx : hd = x := by rw [i] at hmem; simpa using hmem
    subst hx
    exact ⟨i, k⟩

theorem stepSerial_keeps (B : Browser) (ev : Event) (p p' : Page)
    (h : stepSerial B ev p = some p') (hev : ev.plain) (inv : SerialWithin p) :
    SerialWithin p' := by
  obtain ⟨hser, hc, hr⟩ := inv
  obtain ⟨hstep, hsub⟩ := stepSerial_step B ev p p' h
  have hle : (indicators p.dom).length ≤ (awaitingResponse p).length := by
    rcases hser with ⟨i, j⟩ | ⟨x, i, j, k⟩ | ⟨x, b, i, j, k⟩
    · simp [j]
    · have := congrArg List.length k
      simp only [List.length_map, List.length_singleton] at this
      simp [awaitingResponse, i, j, this]
    · simp [k]
  obtain ⟨hc', hr', _⟩ := step_within B ev p p' hstep hev ⟨hc, hr, hle⟩
  refine ⟨?_, hc', hr'⟩
  rcases step_cases B ev p p' hstep hev hc hr with ⟨_, e⟩ | ⟨v, e0, _, e⟩ | ⟨v, e0, _, ht, e⟩ |
    ⟨hid, result, hd, text, _, hmem, _, hph, ht, _, _, _, e⟩ |
    ⟨hid, r, hd, _, hmem, _, hph, _, _, ht, _, e⟩ |
    ⟨hid, hd, body, mid, _, hmem, _, hph, ht, hmid, _, _, _, e⟩
  · subst e
    simpa [Serial, (push_spec p.dom "bot" greetingText).2.2.1] using hser
  · subst e
    have hs := hsub v e0
    exact Or.inl ⟨hs, by simpa [indicators] using serial_no_indicator p hser hs⟩
  · subst e
    have hs := hsub v e0
    have hi : p.dom.children.filter (fun el => el.id == typingIndicatorId) = [] :=
      serial_no_indicator p hser hs
    refine Or.inr (Or.inl ⟨⟨p.started, p.dom.created + 1, .fetching⟩, by simp [hs], rfl, ?_⟩)
    simp [indicators, fetch, State.showing, State.push, List.filter_append, typingIndicatorId]
    simpa [List.filter_eq_nil_iff, typingIndicatorId] using hi
  · subst e
    obtain ⟨i, k⟩ := serial_fetching p hser hd hmem hph
    refine Or.inl ⟨by simp [i], ?_⟩
    show indicators (State.push _ _ _) = []
    rw [(push_spec _ "bot" text).2.2.1, indicators_dropIndicator]
    exact tail_nil_of_map_singleton _ _ _ k
  · subst e
    obtain ⟨i, k⟩ := serial_fetching p hser hd hmem hph
    refine Or.inr (Or.inr ⟨{ hd with phase := .parsing r.body }, r.body, by simp [i], rfl, ?_⟩)
    show indicators (dropIndicator _) = []
    rw [indicators_dropIndicator]
    exact tail_nil_of_map_singleton _ _ _ k
  · subst e
    obtain ⟨i, k⟩ := serial_parsing p hser hd hmem body hph
    refine Or.inl ⟨by simp [i], ?_⟩
    show indicators (State.push _ _ _) = []
    rw [(push_spec mid "bot" (replyText body)).2.2.1]
    rcases (mid_spec p.dom mid hmid).2.1 with e | e <;> simp [e, k]

theorem execSerial_keeps (B : Browser) (evs : List Event) (p p' : Page)
    (h : execSerial B evs p = some p') (hev : ∀ ev ∈ evs, ev.plain)
    (inv : SerialWithin p) : SerialWithin p' := by
  induction evs generalizing p with
  | nil => simp [execSerial] at h; subst h; exact inv
  | cons ev evs ih =>
    simp only [execSerial] at h
    cases hs : stepSerial B ev p with
    | none => simp [hs] at h
    | some q =>
      simp only [hs, Option.some_bind] at h
      exact ih q h (fun e he => hev e (List.mem_cons_of_mem _ he))
        (stepSerial_keeps B ev p q hs (hev ev (List.mem_cons_self _ _)) inv)

theorem serialWithin_initial : SerialWithin Page.initial := by
  refine ⟨Or.inl ⟨rfl, rfl⟩, ?_, ?_⟩
  · intro el hel; simp [Page.initial] at hel
  · intro x hx; simp [Page.initial] at hx

/-! ## Reading back the request body -/

theorem hexValue_hexDigit : ∀ k, k < 16 → hexValue (hexDigit k) = some k := by decide

theorem char_of_toNat (c : Char) (n : Nat) (h : c.toNat = n) : c = Char.ofNat n := by
  rw [← h]; exact (Char.ofNat_toNat c).symm

theorem readJSONChars_escape (e ch : Char) (rest l : List Char) (he : e ≠ 'u')
    (hu : unescapeJSONChar e = some ch) (h : readJSONChars rest = some l) :
    readJSONChars (Char.ofNat 92 :: e :: rest) = some (ch :: l) := by
  rw [readJSONChars.eq_def]
  have h1 : ¬ (Char.ofNat 92).toNat = 0x22 := by decide
  have h2 : (Char.ofNat 92).toNat = 0x5C := by decide
  simp only [h2, if_true, he, hu, h, Option.map_some', if_false]
  rfl

theorem readJSONChars_hex (a b : Char) (x y : Nat) (rest l : List Char)
    (ha : hexValue a = some x) (hb : hexValue b = some y) (hx : x < 16) (hy : y < 16)
    (h : readJSONChars rest = some l) :
    readJSONChars (Char.ofNat 92 :: 'u' :: '0' :: '0' :: a :: b :: rest) =
      some (Char.ofNat (x * 16 + y) :: l) := by
  rw [readJSONChars.eq_def]
  have h1 : ¬ (Char.ofNat 92).toNat = 0x22 := by decide
  have h2 : (Char.ofNat 92).toNat = 0x5C := by decide
  have h3 : hexValue '0' = some 0 := by decide
  have h4 : ¬ (0xD800 ≤ x * 16 + y ∧ x * 16 + y ≤ 0xDFFF) := by omega
  simp only [h2, if_true, h3, ha, hb, h, Option.map_some', Nat.zero_mul,
    Nat.zero_add, if_false, h4]
  rfl

theorem readJSONChars_plain (c : Char) (rest l : List Char) (h1 : c.toNat ≠ 0x22)
    (h2 : c.toNat ≠ 0x5C) (h3 : ¬ c.toNat < 0x20) (h : readJSONChars rest = some l) :
    readJSONChars (c :: rest) = some (c :: l) := by
  rw [readJSONChars.eq_def]
  simp only [h1, h2, h3, if_false, h, Option.map_some']

/-- Reading back what `quoteJSONChar` wrote gives the character. -/
theorem readJSONChars_quoteJSONChar (c : Char) (rest l : List Char)
    (h : readJSONChars rest = some l) :
    readJSONChars (quoteJSONChar c ++ rest) = some (c :: l) := by
  unfold quoteJSONChar
  simp only []
  by_cases h1 : c.toNat = 0x08
  · rw [if_pos h1, char_of_toNat c _ h1]
    exact readJSONChars_escape _ _ _ _ (by decide) (by decide) h
  rw [if_neg h1]
  by_cases h2 : c.toNat = 0x09
  · rw [if_pos h2, char_of_toNat c _ h2]
    exact readJSONChars_escape _ _ _ _ (by decide) (by decide) h
  rw [if_neg h2]
  by_cases h3 : c.toNat = 0x0A
  · rw [if_pos h3, char_of_toNat c _ h3]
    exact readJSONChars_escape _ _ _ _ (by decide) (by decide) h
  rw [if_neg h3]
  by_cases h4 : c.toNat = 0x0C
  · rw [if_pos h4, char_of_toNat c _ h4]
    exact readJSONChars_escape _ _ _ _ (by decide) (by decide) h
  rw [if_neg h4]
  by_cases h5 : c.toNat = 0x0D
  · rw [if_pos h5, char_of_toNat c _ h5]
    exact readJSONChars_escape _ _ _ _ (by decide) (by decide) h
  rw [if_neg h5]
  by_cases h6 : c.toNat = 0x22
  · rw [if_pos h6, char_of_toNat c _ h6]
    exact readJSONChars_escape _ _ _ _ (by decide) (by decide) h
  rw [if_neg h6]
  by_cases h7 : c.toNat = 0x5C
  · rw [if_pos h7, char_of_toNat c _ h7]
    exact readJSONChars_escape _ _ _ _ (by decide) (by decide) h
  rw [if_neg h7]
  by_cases h8 : c.toNat < 0x20
  · rw [if_pos h8]
    have hx := hexValue_hexDigit (c.toNat / 16) (by omega)
    have hy := hexValue_hexDigit (c.toNat % 16) (by omega)
    have := readJSONChars_hex _ _ _ _ rest l hx hy (by omega) (Nat.mod_lt _ (by decide)) h
    rw [Nat.div_add_mod' c.toNat 16, Char.ofNat_toNat] at this
    exact this
  · rw [if_neg h8]
    exact readJSONChars_plain c rest l h6 h7 h8 h

theorem readJSONChars_quoted (l : List Char) :
    readJSONChars ((l.map quoteJSONChar).flatten ++ [Char.ofNat 34]) = some l := by
  induction l with
  | nil => decide
  | cons c l ih =>
    simp only [List.map_cons, List.flatten_cons, List.append_assoc]
    exact readJSONChars_quoteJSONChar c _ l ih

/-- A JSON parser reads the text `quoteJSONString s` as the string `s`. -/
theorem readJSONString_quoteJSONString (s : String) :
    readJSONString (quoteJSONString s) = some s := by
  have hq : (Char.ofNat 34).toNat = 0x22 := by decide
  simp only [readJSONString, quoteJSONString, List.singleton_append, List.cons_append, hq,
    if_true, List.nil_append, readJSONChars_quoted, Option.map_some']

/-! ## One invocation run to its end, and the round trips of a serial run -/

theorem resumeFetch_rejected (B : Browser) (s : State) (h : Plain s) :
    resumeFetch B .rejected s =
      .returned ((dropIndicator s).push "bot" connectionErrorText) := by
  simpa [resumeFetch, withCatch] using catchBlock_plain B s h

/-- A response that is not ok, handled in a plain chat while a placeholder is in
the document. -/
theorem resumeFetch_not_ok (B : Browser) (r : Response) (s : State) (h : Plain s)
    (hi : indicators s ≠ []) (hok : r.ok = false) :
    resumeFetch B (.resolved r) s =
      .returned ((dropIndicator s).push "bot" serverErrorText) := by
  rcases resumeFetch_plain B (.resolved r) s h with ⟨e, _⟩ | ⟨r', hres, hok', _, _⟩
  · rw [if_neg hi] at e
    simpa [botReply, hok] using e
  · cases hres
    rw [hok] at hok'
    cases hok'

/-- One invocation of the listener run to its end with nothing interleaved, in a
plain chat, on a non-blank text without `<`, when the reply has no `<`. -/
theorem submitListener_plain (B : Browser) (result : FetchResult) (s : State)
    (hs : Plain s) (hm : jsTrim s.value ≠ "") (hu : tagOpens (jsTrim s.value) = 0)
    (hr : tagOpens (botReply result) = 0) :
    ∃ (waiting mid : State) (user : Element),
      start B s = .awaitFetch waiting ∧ Plain waiting ∧
      messages waiting = messages s ++ [user] ∧
      indicators waiting = indicators s ++
        [⟨s.created + 1, typingIndicatorId, "flex items-start gap-4", typingHTML⟩] ∧
      waiting.requests = s.requests ++ [chatRequest (jsTrim s.value)] ∧
      rendered user = bubble "user" (jsTrim s.value) ∧
      submitListener B result s = .returned (mid.push "bot" (botReply result)) ∧
      messages mid = messages s ++ [user] ∧
      (indicators s = [] → indicators mid = []) ∧ Plain mid ∧
      mid.requests = waiting.requests ∧
      (resumeFetch B result waiting = .returned (mid.push "bot" (botReply result)) ∨
        ∃ r, result = .resolved r ∧ r.ok = true ∧
          resumeFetch B result waiting = .awaitJson r.body (dropIndicator waiting)) := by
  have hstart := start_plain B s hs hm hu
  have hp1 : Plain ({ s.push "user" (jsTrim s.value) with value := "" } : State) :=
    plain_push s "user" _ hs hu
  have hpw := plain_showing _ hp1
  generalize hw : fetch (chatRequest (jsTrim s.value))
    ({ s.push "user" (jsTrim s.value) with value := "" } : State).showing = w at hstart
  have hwc : w.children =
      (({ s.push "user" (jsTrim s.value) with value := "" } : State).showing).children := by
    rw [← hw]; rfl
  have hwr : w.requests = s.requests ++ [chatRequest (jsTrim s.value)] := by
    rw [← hw]; rfl
  have hpw : Plain w := plain_of_children _ w hwc hpw
  have hwm : messages w = messages s ++
      [⟨s.created, "", containerClass ("user" == "user"),
        containerHTML ("user" == "user") (jsTrim s.value)⟩] := by
    rw [messages_of_children _ w hwc, (showing_spec _).1]
    exact (push_spec s "user" (jsTrim s.value)).1
  have hwi : indicators w = indicators s ++
      [⟨s.created + 1, typingIndicatorId, "flex items-start gap-4", typingHTML⟩] := by
    rw [indicators_of_children _ w hwc, (showing_spec _).2.1]
    congr 1
    exact (push_spec s "user" (jsTrim s.value)).2.2.1
  have hne : indicators w ≠ [] := by rw [hwi]; simp
  have hdi : indicators s = [] → indicators (dropIndicator w) = [] := by
    intro h0
    rw [indicators_dropIndicator, hwi, h0]
    rfl
  rcases resumeFetch_plain B result w hpw with ⟨e, hcase⟩ | ⟨r, hres, hok, _, e⟩
  · rw [if_neg hne] at e
    refine ⟨w, dropIndicator w, ⟨s.created, "", containerClass ("user" == "user"),
        containerHTML ("user" == "user") (jsTrim s.value)⟩, hstart, hpw, hwm, hwi, hwr, rfl, ?_,
      ?_, hdi, plain_dropIndicator w hpw, (dropIndicator_fields w).1, Or.inl e⟩
    · simp [submitListener, hstart, e]
    · rw [messages_dropIndicator, hwm]
  · have hb : botReply result = replyText r.body := by simp [hres, botReply, hok]
    rw [hb] at hr ⊢
    obtain ⟨mid, j, hmid, hreq, _⟩ :=
      resumeJson_plain B r.body (dropIndicator w) (plain_dropIndicator w hpw) hr
    obtain ⟨m1, m2, m3⟩ := mid_spec (dropIndicator w) mid hmid
    refine ⟨w, mid, ⟨s.created, "", containerClass ("user" == "user"),
        containerHTML ("user" == "user") (jsTrim s.value)⟩, hstart, hpw, hwm, hwi, hwr, rfl, ?_,
      ?_, ?_, m3 (plain_dropIndicator w hpw), ?_, Or.inr ⟨r, hres, hok, e⟩⟩
    · simp [submitListener, hstart, e, j]
    · rw [m1, messages_dropIndicator, hwm]
    · intro h0
      rcases m2 with m2 | m2 <;> simp [m2, hdi h0]
    · rw [hreq, (dropIndicator_fields w).1]

/-- The message list after one invocation run to its end with nothing
interleaved. -/
theorem submitListener_messages (B : Browser) (result : FetchResult) (s : State)
    (hs : Plain s) (hm : jsTrim s.value ≠ "") (hu : tagOpens (jsTrim s.value) = 0)
    (hr : tagOpens (botReply result) = 0) :
    ∃ (final : State) (user bot : Element),
      submitListener B result s = .returned final ∧
      messages final = messages s ++ [user, bot] ∧
      messages (start B s).state = messages s ++ [user] ∧
      rendered user = bubble "user" (jsTrim s.value) ∧
      rendered bot = bubble "bot" (botReply result) := by
  obtain ⟨w, mid, user, h1, _, h3, _, _, h6, h7, h8, _⟩ :=
    submitListener_plain B result s hs hm hu hr
  refine ⟨_, user, ⟨mid.created, "", containerClass ("bot" == "user"),
    containerHTML ("bot" == "user") (botReply result)⟩, h7, ?_, by rw [h1]; exact h3, h6, rfl⟩
  rw [(push_spec mid "bot" (botReply result)).1, h8]
  simp

theorem plain_typed (value : String) : Plain (typed value) := by
  intro el hel
  simp [typed] at hel

theorem messageList_append (s t : State) (new : List Element)
    (h : messages t = messages s ++ new) :
    messageList t = messageList s ++ new.map rendered := by
  simp [messageList, h]

/-- One more message is one more element of the list, last, rendered as
`appendMessage` renders it. -/
theorem push_last (s : State) (sender text : String) :
    ∃ new, messages (s.push sender text) = messages s ++ [new] ∧
      rendered new = bubble sender text :=
  ⟨_, (push_spec s sender text).1, rfl⟩

/-- The request of lines 61–65, field by field. -/
theorem chatRequest_eq (m : String) :
    chatRequest m =
      ⟨"/chat", "POST", [("Content-Type", "application/json")],
        "\x7b\"message\":" ++ quoteJSONString m ++ "\x7d"⟩ := by
  have hq : quoteJSONString "message" = "\"message\"" := by decide
  simp only [chatRequest, jsonStringify, List.map_cons, List.map_nil, hq]
  have hi : ∀ x : String, ",".intercalate [x] = x := by
    intro x
    simp [String.intercalate, String.intercalate.go]
  rw [hi]
  congr 1

/-- Settling the response of the only suspended invocation, when the only
placeholder is its own. -/
theorem fetchSettles_serial (B : Browser) (p : Page) (h : Handler) (result : FetchResult)
    (hs : p.suspended = [h]) (hp : h.phase = .fetching)
    (hi : (indicators p.dom).map (·.key) = [h.indicator]) (hc : Plain p.dom)
    (hr : p.repliesPlain) (hR : tagOpens (botReply result) = 0) :
    ∃ p', step B (.fetchSettles h.hid result) p = some p' ∧ indicators p'.dom = [] ∧
      Plain p'.dom ∧ messages p.dom <+: messages p'.dom := by
  have hf : p.suspended.find? (fun x => x.hid == h.hid && x.phase == .fetching) = some h := by
    simp [hs, hp]
  have hstep : step B (.fetchSettles h.hid result) p =
      some (park (resumeFetch B result p.dom) h (p.suspended.erase h) p.started) := by
    simp only [step, hf]
  have hev : (Event.fetchSettles h.hid result).plain := hR
  have ht := tail_nil_of_map_singleton _ _ _ hi
  have hlen : (indicators p.dom).length ≤ (awaitingResponse p).length := by
    have := congrArg List.length hi
    simp only [List.length_map, List.length_singleton] at this
    simp [awaitingResponse, hs, hp, this]
  obtain ⟨⟨new, hnew, _⟩, _⟩ := step_effect B _ p _ hstep hev hc hr
  obtain ⟨hc', _, _⟩ := step_within B _ p _ hstep hev ⟨hc, hr, hlen⟩
  refine ⟨_, hstep, ?_, hc', ⟨new, hnew.symm⟩⟩
  rcases step_cases B _ p _ hstep hev hc hr with ⟨e0, _⟩ | ⟨v, e0, _⟩ | ⟨v, e0, _⟩ |
    ⟨_, _, _, text, _, _, _, _, _, _, _, _, e⟩ | ⟨_, _, _, _, _, _, _, _, _, _, _, e⟩ |
    ⟨_, _, _, mid, e0, _⟩
  · cases e0
  · cases e0
  · cases e0
  · rw [e]
    show indicators (State.push _ _ _) = []
    rw [(push_spec _ "bot" text).2.2.1, indicators_dropIndicator, ht]
  · rw [e]
    show indicators (dropIndicator _) = []
    rw [indicators_dropIndicator, ht]
  · cases e0

/-- Settling `response.json()` of the only suspended invocation, when no
placeholder is in the document. -/
theorem jsonSettles_serial (B : Browser) (p : Page) (h : Handler) (body : Body)
    (hs : p.suspended = [h]) (hp : h.phase = .parsing body) (hi : indicators p.dom = [])
    (hc : Plain p.dom) (hr : p.repliesPlain) :
    ∃ p', step B (.jsonSettles h.hid) p = some p' ∧ indicators p'.dom = [] ∧
      Plain p'.dom ∧ messages p.dom <+: messages p'.dom ∧ p'.suspended = [] := by
  have hf : p.suspended.find? (fun x => x.hid == h.hid && x.phase != .fetching) = some h := by
    simp [hs, hp]
  have hstep : step B (.jsonSettles h.hid) p =
      some (park (resumeJson B body p.dom) h (p.suspended.erase h) p.started) := by
    simp only [step, hf, hp]
  have hev : (Event.jsonSettles h.hid).plain := trivial
  have hlen : (indicators p.dom).length ≤ (awaitingResponse p).length := by simp [hi]
  obtain ⟨⟨new, hnew, _⟩, _⟩ := step_effect B _ p _ hstep hev hc hr
  obtain ⟨hc', _, _⟩ := step_within B _ p _ hstep hev ⟨hc, hr, hlen⟩
  refine ⟨_, hstep, ?_, hc', ⟨new, hnew.symm⟩, ?_⟩
  · rcases step_cases B _ p _ hstep hev hc hr with ⟨e0, _⟩ | ⟨v, e0, _⟩ | ⟨v, e0, _⟩ |
      ⟨_, _, _, text, e0, _⟩ | ⟨_, _, _, e0, _⟩ |
      ⟨_, _, body', mid, _, _, _, _, _, hmid, _, _, _, e⟩
    · cases e0
    · cases e0
    · cases e0
    · cases e0
    · cases e0
    · rw [e]
      show indicators (State.push _ _ _) = []
      rw [(push_spec mid "bot" _).2.2.1]
      rcases (mid_spec p.dom mid hmid).2.1 with e | e <;> simp [e, hi]
  · obtain ⟨mid, j, _⟩ := resumeJson_plain B body p.dom hc (hr h (by simp [hs]) body hp)
    simp [j, park, hs]

/-! ## The properties of the specification: one submission -/

/-- C1, as stated, fails.  (1) The claim excludes other submissions, not the page
load: when the `load` event is delivered while the request is pending, the
greeting is appended between the user message and the bot message, and the run
leaves three messages after the list before the submit.  (2) The text is
interpolated into `innerHTML` unescaped: of the input `formTag` the browser makes
a form with id `typing-indicator` whose `remove` is its control, so line 67
raises, line 78 raises inside the `catch` block, the listener ends with an
exception and no bot message is appended. -/
theorem load_or_markup_breaks_two_messages :
    (∃ p, exec Browser.sample
        [.submit "Hi", .load,
          .fetchSettles 0 (.resolved ⟨200, .parsed (.object [("response", .str "Hello")])⟩),
          .jsonSettles 0] Page.initial = some p ∧
      p.suspended = [] ∧
      messageList p.dom =
        [bubble "user" "Hi", bubble "bot" greetingText, bubble "bot" "Hello"]) ∧
    (∃ e final, submitListener Browser.sample
        (.resolved ⟨200, .parsed (.object [("response", .str "Hello")])⟩) (typed formTag)
        = .threw e final ∧
      messageList final = [bubble "user" formTag]) := by
  set_option maxRecDepth 100000 in
  exact ⟨⟨_, rfl, by decide, by decide⟩, ⟨_, _, rfl, by decide⟩⟩

/-- C1, amended: for every input whose trimmed value is non-empty and has no `<`,
submitted in a chat in which every element was written by the script from a text
without `<`, and for every outcome of the request (fetch rejects; ok = false;
ok = true with a body that parses; ok = true with a body that does not) whose
bot message has a text without `<`, one run of the submit handler with no other
step of the controller interleaved (no other submission, no page load, no
settlement of another request) completes normally and leaves the message list
equal to the list before the submit followed by exactly two messages: first the
user message, appended before the request is issued, then exactly one bot
message, appended after the request has settled.  The text of the bot message
is `botReply`: the connection-error text when fetch rejects or the body cannot
be read, the server-error text when ok = false, the rendered `response` field
otherwise. -/
theorem submit_appends_user_then_one_bot (B : Browser) (s : State) (result : FetchResult)
    (hs : Plain s) (hm : jsTrim s.value ≠ "") (hu : tagOpens (jsTrim s.value) = 0)
    (hr : tagOpens (botReply result) = 0) :
    ∃ (sent waiting final : State) (user bot : Element),
      appendMessage B "user" (.str (jsTrim s.value)) s = .ok sent ∧
      messages sent = messages s ++ [user] ∧ sent.requests = s.requests ∧
      start B s = .awaitFetch waiting ∧
      messages waiting = messages s ++ [user] ∧
      waiting.requests = s.requests ++ [chatRequest (jsTrim s.value)] ∧
      submitListener B result s = .returned final ∧
      messages final = messages s ++ [user, bot] ∧
      rendered user = bubble "user" (jsTrim s.value) ∧
      rendered bot = bubble "bot" (botReply result) := by
  obtain ⟨final, user, bot, h1, h2, h3, h4, h5⟩ := submitListener_messages B result s hs hm hu hr
  have hstart := start_plain B s hs hm hu
  rw [hstart] at h3
  have hsent := appendMessage_plain B "user" (.str (jsTrim s.value)) (jsTrim s.value) s hs rfl hu
  have hu2 : messages (s.push "user" (jsTrim s.value)) = messages s ++ [user] := by
    rw [← h3]
    simp [Control.state, messages, fetch, State.showing, List.filter_append, typingIndicatorId]
  exact ⟨_, _, final, user, bot, hsent, hu2, rfl, hstart, h3, rfl, h1, h2, h4, h5⟩

theorem submit_appends_user_then_one_bot_witness :
    ∃ final, submitListener Browser.sample
        (.resolved ⟨200, .parsed (.object [("response", .str "Hello")])⟩)
        ((typed "  Hi ").push "bot" greetingText) = .returned final ∧
      messageList final =
        [bubble "bot" greetingText, bubble "user" "Hi", bubble "bot" "Hello"] := by
  obtain ⟨sent, waiting, final, user, bot, _, _, _, _, _, _, h7, h8, h9, h10⟩ :=
    submit_appends_user_then_one_bot Browser.sample ((typed "  Hi ").push "bot" greetingText)
      (.resolved ⟨200, .parsed (.object [("response", .str "Hello")])⟩)
      (plain_push _ _ _ (plain_typed _) greeting_plain) (by decide) (by decide) (by decide)
  refine ⟨final, h7, ?_⟩
  rw [messageList_append _ _ _ h8]
  have e1 : jsTrim ((typed "  Hi ").push "bot" greetingText).value = "Hi" := by decide
  have e2 : botReply (.resolved ⟨200, .parsed (.object [("response", .str "Hello")])⟩)
      = "Hello" := by decide
  rw [e1] at h9
  rw [e2] at h10
  simp only [List.map_cons, List.map_nil, h9, h10]
  rfl

/-- C2, as stated, fails: the claim states no condition on what happens between
the submit and the completion of the handler, nor on the texts.  (1) After the
submissions `a` and `b`, the second made while the first request is pending,
the handler of `a` completes on a successful response with `response` field
`A`, and the list ends with the user message `b` followed by the bot message
`A`, not with the user message `a` followed by it.  (2) With the page load
delivered while the request is pending, the greeting stands between the user
message and the bot message.  (3) Of the input `formTag` the browser makes a
form with id `typing-indicator` whose `remove` is its control: line 67 and
line 78 raise, and the list ends with the user message, with no bot message. -/
theorem overlap_load_or_markup_breaks_reply_order :
    (∃ p, exec Browser.sample
        [.submit "a", .submit "b",
          .fetchSettles 0 (.resolved ⟨200, .parsed (.object [("response", .str "A")])⟩),
          .jsonSettles 0] Page.initial = some p ∧
      p.suspended.map (·.hid) = [1] ∧
      messageList p.dom = [bubble "user" "a", bubble "user" "b", bubble "bot" "A"]) ∧
    (∃ p, exec Browser.sample
        [.submit "Hi", .load,
          .fetchSettles 0 (.resolved ⟨200, .parsed (.object [("response", .str "Hello")])⟩),
          .jsonSettles 0] Page.initial = some p ∧
      p.suspended = [] ∧
      messageList p.dom =
        [bubble "user" "Hi", bubble "bot" greetingText, bubble "bot" "Hello"]) ∧
    (∃ e final, submitListener Browser.sample
        (.resolved ⟨200, .parsed (.object [("response", .str "Hello")])⟩) (typed formTag)
        = .threw e final ∧
      messageList final = [bubble "user" formTag]) := by
  set_option maxRecDepth 100000 in
  exact ⟨⟨_, rfl, by decide, by decide⟩, ⟨_, rfl, by decide, by decide⟩,
    ⟨_, _, rfl, by decide⟩⟩

/-- C2, amended: for every input whose trimmed value m is non-empty and has no
`<`, submitted in a chat in which every element was written by the script from a
text without `<`, and every successful response (ok = true) whose JSON body is
an object with a `response` field that renders as a text r without `<` (r itself
when the field is a string), when no other step of the controller is interleaved
between the submit and the completion of the handler (no other submission, no
page load, no settlement of another request): the handler completes normally and the message list ends with the user
message (sender `user`, text m) immediately followed by the bot message (sender
`bot`, text r), both appended by this run after the list before the submit; m is
the trimmed input, not the raw input. -/
theorem success_reply_follows_user_message (B : Browser) (s : State) (r : Response)
    (fields : List (String × JsValue)) (v : JsValue) (reply : String)
    (hs : Plain s) (hm : jsTrim s.value ≠ "") (hu : tagOpens (jsTrim s.value) = 0)
    (hok : r.ok = true) (hbody : r.body = .parsed (.object fields))
    (hfield : fields.lookup "response" = some v) (hv : templateText v = some reply)
    (hr : tagOpens reply = 0) :
    ∃ (final : State) (user bot : Element),
      submitListener B (.resolved r) s = .returned final ∧
      messages final = messages s ++ [user, bot] ∧
      rendered user = bubble "user" (jsTrim s.value) ∧
      rendered bot = bubble "bot" reply := by
  have hb : botReply (.resolved r) = reply := by
    simp [botReply, hok, replyText, hbody, Json.response, hfield, hv]
  obtain ⟨final, user, bot, h1, h2, _, h4, h5⟩ :=
    submitListener_messages B (.resolved r) s hs hm hu (by rw [hb]; exact hr)
  rw [hb] at h5
  exact ⟨final, user, bot, h1, h2, h4, h5⟩

theorem success_reply_follows_user_message_witness :
    jsTrim (typed "  Hi \n").value = "Hi" ∧
    ∃ final, submitListener Browser.sample
        (.resolved ⟨200, .parsed (.object [("response", .str "Hello")])⟩)
        (typed "  Hi \n") = .returned final ∧
      messageList final = [bubble "user" "Hi", bubble "bot" "Hello"] := by
  have e : jsTrim (typed "  Hi \n").value = "Hi" := by decide
  obtain ⟨final, user, bot, h1, h2, h3, h4⟩ :=
    success_reply_follows_user_message Browser.sample (typed "  Hi \n")
      ⟨200, .parsed (.object [("response", .str "Hello")])⟩ [("response", .str "Hello")]
      (.str "Hello") "Hello" (plain_typed _) (by decide) (by decide) (by decide) rfl
      (by decide) rfl (by decide)
  rw [e] at h3
  refine ⟨e, final, h1, ?_⟩
  rw [messageList_append _ _ _ h2]
  simp only [List.map_cons, List.map_nil, h3, h4]
  rfl

/-- C3: on an input that is empty or only white space the submit handler
returns at once and leaves the state exactly as it was: no message, no typing
indicator, no request, and the input field keeps its value. -/
theorem blank_input_is_noop (B : Browser) (s : State) (result : FetchResult)
    (h : jsTrim s.value = "") :
    start B s = .returned s ∧ submitListener B result s = .returned s := by
  have hs := start_blank B s h
  exact ⟨hs, by simp [submitListener, hs]⟩

theorem blank_input_is_noop_witness :
    jsTrim (typed " \t\n ").value = "" ∧
    start Browser.sample (typed " \t\n ") = .returned (typed " \t\n ") ∧
    submitListener Browser.sample .rejected (typed " \t\n ") = .returned (typed " \t\n ") :=
  ⟨by decide, blank_input_is_noop Browser.sample (typed " \t\n ") .rejected (by decide)⟩

/-- C4, as stated, fails: the claim is about every response with ok = false.
(1) After `a` is submitted and answered by a body that is not JSON, and `b` is
submitted while `a` waits for `response.json()`, the `catch` block of `a` removes
the placeholder of `b`; the response 500 to `b` then finds no element at line
67, which raises before the status is looked at, and its bot message is the
connection-error text, not the server-error text.  (2) Of the input `formTag` the
browser makes a form with id `typing-indicator` whose `remove` is its control:
on a response 500 line 67 and line 78 raise, and the final message is the user
message, with no bot message. -/
theorem overlap_or_markup_hides_server_error :
    (∃ p, exec Browser.sample
        [.submit "a", .fetchSettles 0 (.resolved ⟨200, .unparsable⟩), .submit "b",
          .jsonSettles 0, .fetchSettles 1 (.resolved ⟨500, .unparsable⟩)] Page.initial
        = some p ∧
      p.suspended = [] ∧
      messageList p.dom =
        [bubble "user" "a", bubble "user" "b", bubble "bot" connectionErrorText,
          bubble "bot" connectionErrorText]) ∧
    (∃ e final, submitListener Browser.sample (.resolved ⟨500, .unparsable⟩) (typed formTag)
        = .threw e final ∧
      messageList final = [bubble "user" formTag]) := by
  set_option maxRecDepth 100000 in
  exact ⟨⟨_, rfl, by decide, by decide⟩, ⟨_, _, rfl, by decide⟩⟩

/-- C4, amended: in every execution from the initial page in which no submitted
text and no bot reply has a `<` and no submission is made while an earlier
invocation of the handler is suspended, for every response whose status is not a
success status (ok = false) delivered to the handler that waits for it, whatever
the status code and whatever the body: the handler completes normally in the
segment that received the response, so the body is never parsed and no
invocation is left suspended; the message list is the list before followed by
one message, the bot message with the fixed server-error text; and every other
response with ok = false (e.g. 404 and 500) leads to the same page. -/
theorem server_error_reply (B : Browser) (evs : List Event) (p p' : Page) (hid : Nat)
    (r r' : Response) (hev : ∀ ev ∈ evs, ev.plain)
    (hrun : execSerial B evs Page.initial = some p)
    (hok : r.ok = false) (hok' : r'.ok = false)
    (hstep : step B (.fetchSettles hid (.resolved r)) p = some p') :
    resumeFetch B (.resolved r) p.dom = .returned p'.dom ∧
    (∃ bot, messages p'.dom = messages p.dom ++ [bot] ∧
      rendered bot = bubble "bot" serverErrorText) ∧
    p'.suspended = [] ∧
    step B (.fetchSettles hid (.resolved r')) p = some p' := by
  obtain ⟨hser, hc, _⟩ := execSerial_keeps B evs Page.initial p hrun hev serialWithin_initial
  simp only [step] at hstep ⊢
  cases hf : p.suspended.find? (fun h => h.hid == hid && h.phase == .fetching) with
  | none => simp [hf] at hstep
  | some hd =>
    have hmem : hd ∈ p.suspended := List.mem_of_find?_eq_some hf
    have hq := List.find?_some (p := fun h : Handler => h.hid == hid && h.phase == .fetching) hf
    simp only [Bool.and_eq_true, beq_iff_eq] at hq
    obtain ⟨i, k⟩ := serial_fetching p hser hd hmem hq.2
    have hi : indicators p.dom ≠ [] := by
      intro e
      rw [e] at k
      cases k
    have e1 := resumeFetch_not_ok B r p.dom hc hi hok
    have e2 := resumeFetch_not_ok B r' p.dom hc hi hok'
    simp only [hf, e1, park, Option.some.injEq] at hstep
    subst hstep
    obtain ⟨bot, b1, b2⟩ := push_last (dropIndicator p.dom) "bot" serverErrorText
    rw [messages_dropIndicator] at b1
    exact ⟨e1, ⟨bot, b1, b2⟩, by simp [i], by simp only [e2, park]⟩

set_option maxRecDepth 100000 in
theorem server_error_reply_witness :
    ∃ p p', execSerial Browser.sample [.load, .submit "Hi"] Page.initial = some p ∧
      step Browser.sample
        (.fetchSettles 0 (.resolved ⟨404, .parsed (.object [("response", .str "no")])⟩)) p
        = some p' ∧
      messageList p'.dom =
        [bubble "bot" greetingText, bubble "user" "Hi", bubble "bot" serverErrorText] ∧
      p'.suspended = [] ∧
      step Browser.sample (.fetchSettles 0 (.resolved ⟨500, .unparsable⟩)) p = some p' := by
  have w := server_error_reply Browser.sample [.load, .submit "Hi"] _ _ 0
    ⟨404, .parsed (.object [("response", .str "no")])⟩ ⟨500, .unparsable⟩
    (by
      intro ev hev
      simp only [List.mem_cons, List.mem_singleton, List.not_mem_nil, or_false] at hev
      rcases hev with e | e <;> rw [e]
      · trivial
      · show tagOpens (jsTrim "Hi") = 0
        decide)
    rfl (by decide) (by decide) rfl
  refine ⟨_, _, rfl, rfl, ?_, w.2.2.1, w.2.2.2⟩
  decide

/-- C5, as stated, fails: of the input `formTag` the browser makes a form with
id `typing-indicator` whose `remove` property is its control named `remove`.
When the fetch call rejects, line 78 finds that form, first in document order,
and calling its `remove` raises inside the `catch` block: the listener ends with
an exception, and the final message is the user message, with no bot message. -/
theorem typed_form_breaks_catch_block :
    jsTrim (typed formTag).value ≠ "" ∧
    ∃ e final, submitListener Browser.sample .rejected (typed formTag) = .threw e final ∧
      messageList final = [bubble "user" formTag] := by
  set_option maxRecDepth 100000 in
  exact ⟨by decide, _, _, rfl, by decide⟩

/-- C5, amended: in every execution from the initial page, overlapping
submissions included, in which no submitted text and no bot reply has a `<`:
when the fetch call of a handler rejects, the handler completes normally (no
exception leaves it) and the message list is the list before followed by one
message, the bot message with the fixed connection-error text. -/
theorem connection_error_reply (B : Browser) (evs : List Event) (p p' : Page) (hid : Nat)
    (hev : ∀ ev ∈ evs, ev.plain) (hrun : exec B evs Page.initial = some p)
    (hstep : step B (.fetchSettles hid .rejected) p = some p') :
    resumeFetch B .rejected p.dom = .returned p'.dom ∧
    ∃ bot, messages p'.dom = messages p.dom ++ [bot] ∧
      rendered bot = bubble "bot" connectionErrorText := by
  obtain ⟨hc, _, _⟩ := exec_within B evs Page.initial p hrun hev within_initial
  simp only [step] at hstep
  cases hf : p.suspended.find? (fun h => h.hid == hid && h.phase == .fetching) with
  | none => simp [hf] at hstep
  | some hd =>
    have e1 := resumeFetch_rejected B p.dom hc
    simp only [hf, e1, park, Option.some.injEq] at hstep
    subst hstep
    obtain ⟨bot, b1, b2⟩ := push_last (dropIndicator p.dom) "bot" connectionErrorText
    rw [messages_dropIndicator] at b1
    exact ⟨e1, bot, b1, b2⟩

set_option maxRecDepth 100000 in
theorem connection_error_reply_witness :
    ∃ p p', exec Browser.sample [.load, .submit "a", .submit "b"] Page.initial = some p ∧
      step Browser.sample (.fetchSettles 1 .rejected) p = some p' ∧
      resumeFetch Browser.sample .rejected p.dom = .returned p'.dom ∧
      messageList p'.dom =
        [bubble "bot" greetingText, bubble "user" "a", bubble "user" "b",
          bubble "bot" connectionErrorText] := by
  have w := connection_error_reply Browser.sample [.load, .submit "a", .submit "b"] _ _ 1
    (by
      intro ev hev
      simp only [List.mem_cons, List.mem_singleton, List.not_mem_nil, or_false] at hev
      rcases hev with e | e | e <;> rw [e]
      · trivial
      · show tagOpens (jsTrim "a") = 0
        decide
      · show tagOpens (jsTrim "b") = 0
        decide)
    rfl rfl
  refine ⟨_, _, rfl, rfl, w.1, ?_⟩
  decide

/-- C6, as stated, fails: of the input `imageTag` the browser makes an image
named `createElement`, which shadows `document.createElement` once the user
message is attached.  `showTypingIndicator` (line 33) then raises, outside the
`try` block: the listener ends with an exception before `fetch` is called, and
the run of the handler has issued no request. -/
theorem typed_image_issues_no_request :
    jsTrim (typed imageTag).value ≠ "" ∧
    (∃ e final, start Browser.sample (typed imageTag) = .threw e final ∧
      final.requests = [] ∧ messageList final = [bubble "user" imageTag]) ∧
    ∃ p, exec Browser.sample [.submit imageTag] Page.initial = some p ∧
      p.suspended = [] ∧ p.dom.requests = [] := by
  set_option maxRecDepth 100000 in
  exact ⟨by decide, ⟨_, _, rfl, by decide, by decide⟩, _, rfl, by decide, by decide⟩

/-- C6, amended: in every execution from the initial page, overlapping
submissions included, in which no submitted text and no bot reply has a `<`:
the step in which the form is submitted with an input whose trimmed value m is
non-empty issues exactly one request, with path `/chat`, method POST, the single
header Content-Type: application/json, and a body that is the text
`{"message":q}` where q is a JSON string literal that a JSON parser reads as m
(the trimmed input); and no other step of the controller (the page load, the
handling of a response with any status, of a rejected fetch, of a parsed or
unparsable body) issues any request, so none is issued on a failure path. -/
theorem one_post_request (B : Browser) (evs : List Event) (p p' : Page) (ev : Event)
    (hev : ∀ e ∈ evs, e.plain) (hrun : exec B evs Page.initial = some p)
    (hplain : ev.plain) (hstep : step B ev p = some p') :
    (∀ v, ev = .submit v → jsTrim v ≠ "" →
      ∃ q, readJSONString q = some (jsTrim v) ∧
        p'.dom.requests = p.dom.requests ++
          [⟨"/chat", "POST", [("Content-Type", "application/json")],
            "\x7b\"message\":" ++ q ++ "\x7d"⟩]) ∧
    ((∀ v, ev ≠ .submit v) → p'.dom.requests = p.dom.requests) := by
  obtain ⟨hc, hr, _⟩ := exec_within B evs Page.initial p hrun hev within_initial
  obtain ⟨_, h1, _, h3⟩ := step_effect B ev p p' hstep hplain hc hr
  refine ⟨fun v e hv => ⟨quoteJSONString (jsTrim v), readJSONString_quoteJSONString _, ?_⟩, h3⟩
  rw [h1 v e hv, chatRequest_eq]

set_option maxRecDepth 100000 in
theorem one_post_request_witness :
    jsTrim "  say \"a\\b\"\n\tnow\x01 " = "say \"a\\b\"\n\tnow\x01" ∧
    ∃ p p', exec Browser.sample [.load] Page.initial = some p ∧
      step Browser.sample (.submit "  say \"a\\b\"\n\tnow\x01 ") p = some p' ∧
      p'.dom.requests =
        [⟨"/chat", "POST", [("Content-Type", "application/json")],
          "\x7b\"message\":\"say \\\"a\\\\b\\\"\\n\\tnow\\u0001\"\x7d"⟩] ∧
      ∃ q, readJSONString q = some "say \"a\\b\"\n\tnow\x01" ∧
        p'.dom.requests = p.dom.requests ++
          [⟨"/chat", "POST", [("Content-Type", "application/json")],
            "\x7b\"message\":" ++ q ++ "\x7d"⟩] := by
  have e : jsTrim "  say \"a\\b\"\n\tnow\x01 " = "say \"a\\b\"\n\tnow\x01" := by decide
  have w := (one_post_request Browser.sample [.load] _ _ (.submit "  say \"a\\b\"\n\tnow\x01 ")
    (by
      intro ev hev
      simp only [List.mem_singleton] at hev
      rw [hev]
      trivial)
    rfl
    (by
      show tagOpens (jsTrim "  say \"a\\b\"\n\tnow\x01 ") = 0
      decide)
    rfl).1 _ rfl (by decide)
  rw [e] at w
  exact ⟨e, _, _, rfl, rfl, by decide, w⟩

/-! ## The properties of the specification: the typing indicator -/

/-- C7, as stated, fails.  (1) The input `<i id="typing-indicator"></i>` is not
blank and is submitted in a state without any element with that id.  The browser
makes an element with the id of the text, so two such elements are in the
document while the handler waits; the lookup then finds the one inside the user
message, first in document order, and removes it, and the placeholder (key 1) is
still there when the handler has completed.  (2) The claim puts no condition on
what happens after the submit: when `b` is submitted while the request of `a` is
pending, two elements with the id are in the document while `a` waits, and one
is left when the handler of `a` has appended its bot message and completed.
(3) When the text of the reply is `<i id="typing-indicator"></i>`, one element
with the id is in the document when the handler has completed. -/
theorem typed_markup_keeps_indicator :
    (jsTrim (typed indicatorTag).value ≠ "" ∧
      indicatorCount Browser.sample (typed indicatorTag) = 0 ∧
      ∃ waiting final, start Browser.sample (typed indicatorTag) = .awaitFetch waiting ∧
        indicatorCount Browser.sample waiting = 2 ∧
        submitListener Browser.sample
          (.resolved ⟨200, .parsed (.object [("response", .str "Hello")])⟩)
          (typed indicatorTag) = .returned final ∧
        indicatorCount Browser.sample final = 1 ∧ (indicators final).map (·.key) = [1]) ∧
    (∃ p p', exec Browser.sample [.submit "a", .submit "b"] Page.initial = some p ∧
      indicatorCount Browser.sample p.dom = 2 ∧
      step Browser.sample (.fetchSettles 0 .rejected) p = some p' ∧
      p'.suspended.map (·.hid) = [1] ∧
      indicatorCount Browser.sample p'.dom = 1) ∧
    (∃ final, submitListener Browser.sample
        (.resolved ⟨200, .parsed (.object [("response", .str indicatorTag)])⟩)
        (typed "Hi") = .returned final ∧
      indicatorCount Browser.sample final = 1) := by
  set_option maxRecDepth 100000 in
  exact ⟨⟨by decide, by decide, _, _, rfl, by decide, rfl, by decide, by decide⟩,
    ⟨_, _, rfl, by decide, rfl, by decide, by decide⟩, ⟨_, rfl, by decide⟩⟩

/-- C7, amended: for every input whose trimmed value is non-empty and has no `<`,
submitted in a chat in which every element was written by the script from a text
without `<`, with no typing-indicator element in the document and no other
request pending, and for every outcome of the request (fetch rejects; ok =
false; ok = true with a body that parses; ok = true with a body that does not)
whose bot message has a text without `<`, when no other step of the controller
is interleaved between the submit and the completion of the handler (no other
submission, no page load, no settlement of another request): the number of typing-indicator elements is exactly
one when the handler suspends on the request, and it is exactly zero once the
response has been handled (also while the handler waits for `response.json()`),
at the moment the bot message is appended, and when the handler has completed
normally. -/
theorem indicator_one_while_waiting_none_after (B : Browser) (s : State)
    (result : FetchResult) (hs : Plain s) (h0 : indicatorCount B s = 0)
    (hm : jsTrim s.value ≠ "") (hu : tagOpens (jsTrim s.value) = 0)
    (hr : tagOpens (botReply result) = 0) :
    ∃ waiting mid final, start B s = .awaitFetch waiting ∧
      indicatorCount B waiting = 1 ∧
      indicatorCount B (resumeFetch B result waiting).state = 0 ∧
      submitListener B result s = .returned final ∧
      appendMessage B "bot" (.str (botReply result)) mid = .ok final ∧
      indicatorCount B mid = 0 ∧
      indicatorCount B final = 0 := by
  have hi : indicators s = [] := by
    rw [indicatorCount_plain B s hs] at h0
    exact List.length_eq_zero.mp h0
  obtain ⟨w, mid, user, h1, h2, _, h4, _, _, h7, _, h9, h10, _, h12⟩ :=
    submitListener_plain B result s hs hm hu hr
  have hpf := plain_push mid "bot" (botReply result) h10 hr
  have hif : indicators (mid.push "bot" (botReply result)) = [] := by
    rw [(push_spec mid "bot" (botReply result)).2.2.1]
    exact h9 hi
  refine ⟨w, mid, _, h1, ?_, ?_, h7,
    appendMessage_plain B "bot" (.str (botReply result)) (botReply result) mid h10 rfl hr, ?_, ?_⟩
  · rw [indicatorCount_plain B w h2, h4, hi]
    rfl
  · rcases h12 with e | ⟨r, _, _, e⟩
    · rw [e]
      simp only [Control.state]
      rw [indicatorCount_plain B _ hpf, hif]
      rfl
    · rw [e]
      simp only [Control.state]
      rw [indicatorCount_plain B _ (plain_dropIndicator w h2), indicators_dropIndicator, h4, hi]
      rfl
  · rw [indicatorCount_plain B mid h10, h9 hi]
    rfl
  · rw [indicatorCount_plain B _ hpf, hif]
    rfl

set_option maxRecDepth 100000 in
theorem indicator_one_while_waiting_none_after_witness :
    ∃ waiting mid final,
      start Browser.sample ((typed " Hi ").push "bot" greetingText) = .awaitFetch waiting ∧
      indicatorCount Browser.sample waiting = 1 ∧
      indicatorCount Browser.sample (resumeFetch Browser.sample
        (.resolved ⟨200, .parsed (.object [("response", .str "Hello")])⟩) waiting).state = 0 ∧
      submitListener Browser.sample
        (.resolved ⟨200, .parsed (.object [("response", .str "Hello")])⟩)
        ((typed " Hi ").push "bot" greetingText) = .returned final ∧
      appendMessage Browser.sample "bot"
        (.str (botReply (.resolved ⟨200, .parsed (.object [("response", .str "Hello")])⟩)))
        mid = .ok final ∧
      indicatorCount Browser.sample mid = 0 ∧
      indicatorCount Browser.sample final = 0 :=
  indicator_one_while_waiting_none_after Browser.sample ((typed " Hi ").push "bot" greetingText)
    (.resolved ⟨200, .parsed (.object [("response", .str "Hello")])⟩)
    (plain_push _ _ _ (plain_typed _) greeting_plain) (by decide) (by decide) (by decide)
    (by decide)

/-! ## The properties of the specification: overlapping invocations -/

/-- C8, as stated, fails.  (1) After two overlapping submissions (invocation 0
created the indicator with key 1, invocation 1 the one with key 3), handling the
response of invocation 1 removes the element of invocation 0, which still waits
for its response, and leaves its own element in the document.  (2) Without any
overlap, when the submitted text is `<i id="typing-indicator"></i>`, handling
the rejected fetch removes the element inside the user message and not the
placeholder the submission created (key 1), which stays in the document with no
invocation left to remove it. -/
theorem settlement_removes_other_indicator :
    (∃ p p', exec Browser.sample [.submit "a", .submit "b"] Page.initial = some p ∧
      step Browser.sample
        (.fetchSettles 1 (.resolved ⟨200, .parsed (.object [("response", .str "B")])⟩)) p
        = some p' ∧
      p.suspended.map (fun h => (h.hid, h.indicator)) = [(0, 1), (1, 3)] ∧
      (indicators p.dom).map (·.key) = [1, 3] ∧
      (indicators p'.dom).map (·.key) = [3] ∧
      (awaitingResponse p').map (·.hid) = [0]) ∧
    (∃ p p', execSerial Browser.sample [.submit indicatorTag] Page.initial = some p ∧
      step Browser.sample (.fetchSettles 0 .rejected) p = some p' ∧
      p.suspended.map (fun h => (h.hid, h.indicator)) = [(0, 1)] ∧
      (indicators p.dom).map (·.key) = [1] ∧
      (indicators p'.dom).map (·.key) = [1] ∧
      p'.suspended = []) := by
  set_option maxRecDepth 100000 in
  exact ⟨⟨_, _, rfl, rfl, by decide, by decide, by decide, by decide⟩,
    ⟨_, _, rfl, rfl, by decide, by decide, by decide, by decide⟩⟩

/-- C8, amended: in every execution from the initial page in which no
submission is made while an earlier invocation of the handler is suspended, and
in which no submitted text and no bot reply has a `<`, each round trip removes
exactly one typing-indicator element, its own.  While an invocation waits for
its response the only element with the id in the document is the placeholder its
`showTypingIndicator` call created, and handling the response or the rejection,
whatever it is, removes it and no message; while the invocation waits for
`response.json()` there is none, and the rest of the handling removes nothing
and ends the invocation.  (Lookup is by the fixed id `typing-indicator`: it is
the first element with that id in document order that is removed.) -/
theorem serial_round_trip_removes_own_indicator (B : Browser) (evs : List Event) (p : Page)
    (hrun : execSerial B evs Page.initial = some p) (hev : ∀ ev ∈ evs, ev.plain)
    (h : Handler) (hmem : h ∈ p.suspended) :
    (h.phase = .fetching →
      (indicators p.dom).map (·.key) = [h.indicator] ∧ indicatorCount B p.dom = 1 ∧
      ∀ result, tagOpens (botReply result) = 0 →
        ∃ p', step B (.fetchSettles h.hid result) p = some p' ∧
          indicatorCount B p'.dom = 0 ∧ messages p.dom <+: messages p'.dom) ∧
    (∀ body, h.phase = .parsing body →
      indicatorCount B p.dom = 0 ∧
      ∃ p', step B (.jsonSettles h.hid) p = some p' ∧ indicatorCount B p'.dom = 0 ∧
        messages p.dom <+: messages p'.dom ∧ p'.suspended = []) := by
  obtain ⟨hser, hc, hr⟩ := execSerial_keeps B evs Page.initial p hrun hev serialWithin_initial
  have hcount := indicatorCount_plain B p.dom hc
  refine ⟨fun hf => ?_, fun body hb => ?_⟩
  · obtain ⟨i, k⟩ := serial_fetching p hser h hmem hf
    refine ⟨k, ?_, fun result hR => ?_⟩
    · have := congrArg List.length k
      simp only [List.length_map, List.length_singleton] at this
      omega
    · obtain ⟨q, q1, q2, q3, q4⟩ := fetchSettles_serial B p h result i hf k hc hr hR
      exact ⟨q, q1, by rw [indicatorCount_plain B _ q3, q2]; rfl, q4⟩
  · obtain ⟨i, k⟩ := serial_parsing p hser h hmem body hb
    obtain ⟨q, q1, q2, q3, q4, q5⟩ := jsonSettles_serial B p h body i hb k hc hr
    exact ⟨by rw [hcount, k]; rfl, q, q1, by rw [indicatorCount_plain B _ q3, q2]; rfl, q4, q5⟩

set_option maxRecDepth 100000 in
theorem serial_round_trip_removes_own_indicator_witness :
    ∃ p, execSerial Browser.sample [.load, .submit "a"] Page.initial = some p ∧
      (⟨0, 2, .fetching⟩ : Handler) ∈ p.suspended ∧
      (indicators p.dom).map (·.key) = [2] ∧ indicatorCount Browser.sample p.dom = 1 ∧
      ∀ result, tagOpens (botReply result) = 0 →
        ∃ p', step Browser.sample (.fetchSettles 0 result) p = some p' ∧
          indicatorCount Browser.sample p'.dom = 0 ∧ messages p.dom <+: messages p'.dom := by
  refine ⟨_, rfl, by decide, ?_⟩
  refine (serial_round_trip_removes_own_indicator Browser.sample [.load, .submit "a"] _ ?_ ?_
    ⟨0, 2, .fetching⟩ ?_).1 rfl
  · rfl
  · intro ev hev
    simp only [List.mem_cons, List.mem_singleton, List.not_mem_nil, or_false] at hev
    rcases hev with e | e <;> rw [e]
    · trivial
    · show tagOpens (jsTrim "a") = 0
      decide
  · decide

/-- C9, as stated, fails.  (1) Two submissions in a row, the second made while
the first request is pending, leave two elements with id `typing-indicator`.
(2) One submission of the text `<i id="typing-indicator"></i>` leaves two as
well while its request is pending: the element the browser makes of the text,
and the placeholder. -/
theorem two_indicators_reachable :
    (∃ p, exec Browser.sample [.submit "a", .submit "b"] Page.initial = some p ∧
      ¬ indicatorCount Browser.sample p.dom ≤ 1) ∧
    (∃ p, exec Browser.sample [.submit indicatorTag] Page.initial = some p ∧
      ¬ indicatorCount Browser.sample p.dom ≤ 1) := by
  set_option maxRecDepth 100000 in
  exact ⟨⟨_, rfl, by decide⟩, ⟨_, rfl, by decide⟩⟩

/-- C9, amended: in every state reachable from the initial page state (no
typing-indicator element) by any sequence of the controller's steps (page load,
submit of any input, settlement of any pending request with any outcome) in
which no submitted text and no bot reply has a `<`, the number of elements with
id `typing-indicator` in the document is at most the number of invocations of
the handler still waiting for their response; and it is at most one when,
besides, no submission is made while an earlier invocation is suspended. -/
theorem indicators_le_awaiting (B : Browser) (evs : List Event) (p : Page)
    (h : exec B evs Page.initial = some p) (hev : ∀ ev ∈ evs, ev.plain) :
    indicatorCount B p.dom ≤ (awaitingResponse p).length ∧
    (execSerial B evs Page.initial = some p → indicatorCount B p.dom ≤ 1) := by
  obtain ⟨hc, _, hle⟩ := exec_within B evs Page.initial p h hev within_initial
  have hcount := indicatorCount_plain B p.dom hc
  refine ⟨by rw [hcount]; exact hle, fun hs => ?_⟩
  obtain ⟨inv, _, _⟩ := execSerial_keeps B evs Page.initial p hs hev serialWithin_initial
  rw [hcount]
  rcases inv with ⟨_, k⟩ | ⟨x, _, _, k⟩ | ⟨x, b, _, _, k⟩
  · simp [k]
  · have := congrArg List.length k
    simp at this
    omega
  · simp [k]

set_option maxRecDepth 100000 in
theorem indicators_le_awaiting_witness :
    ∃ p, exec Browser.sample
        [.load, .submit "a", .fetchSettles 0 .rejected, .submit "b"] Page.initial = some p ∧
      execSerial Browser.sample
        [.load, .submit "a", .fetchSettles 0 .rejected, .submit "b"] Page.initial = some p ∧
      (awaitingResponse p).length = 1 ∧
      indicatorCount Browser.sample p.dom ≤ (awaitingResponse p).length ∧
      indicatorCount Browser.sample p.dom ≤ 1 := by
  have w := indicators_le_awaiting Browser.sample
    [.load, .submit "a", .fetchSettles 0 .rejected, .submit "b"] _ rfl
    (by
      intro ev hev
      simp only [List.mem_cons, List.mem_singleton, List.not_mem_nil, or_false] at hev
      rcases hev with e | e | e | e <;> rw [e]
      · trivial
      · show tagOpens (jsTrim "a") = 0
        decide
      · show tagOpens (botReply .rejected) = 0
        decide
      · show tagOpens (jsTrim "b") = 0
        decide)
  exact ⟨_, rfl, rfl, by decide, w.1, w.2 rfl⟩

/-- C10, as stated, fails.  (1) After the page load the list is the greeting.
Of the submitted text `frameTag` the browser makes a frame whose `load` handler
runs when the user message is attached and removes the first child of
`chat-messages`: when the handler has completed, the list is the user message
and the bot message, and the greeting is no longer in it.  (2) After the
submission of `<i id="typing-indicator"></i>` the list is the user message with
that element in it; handling the rejected fetch detaches the element (line 78
finds it first), so the first message of the list is no longer the one that was
there: the list before the step is not a prefix of the list after it. -/
theorem messages_removed_or_altered :
    (∃ p q, exec Browser.sample [.load] Page.initial = some p ∧
      messageList p.dom = [bubble "bot" greetingText] ∧
      exec Browser.sample [.submit frameTag, .fetchSettles 0 .rejected] p = some q ∧
      messageList q.dom = [bubble "user" frameTag, bubble "bot" connectionErrorText] ∧
      ¬ messages p.dom <+: messages q.dom) ∧
    (∃ p q, exec Browser.sample [.submit indicatorTag] Page.initial = some p ∧
      messageList p.dom = [bubble "user" indicatorTag] ∧
      step Browser.sample (.fetchSettles 0 .rejected) p = some q ∧
      messageList q.dom = [bubble "user" "", bubble "bot" connectionErrorText] ∧
      ¬ messages p.dom <+: messages q.dom) := by
  set_option maxRecDepth 100000 in
  exact ⟨⟨_, _, rfl, by decide, rfl, by decide, by decide⟩,
    ⟨_, _, rfl, by decide, rfl, by decide, by decide⟩⟩

/-- C10, amended: the message list is append-only as long as no text has a
`<`.  In every execution from the initial page, overlapping submissions
included, in which no submitted text and no bot reply has a `<`, for every step
of the controller (the load handler, the submit handler before its request, the
handling of any request outcome) the sequence of messages in the list before
the step, each message with its container, class name and content, is a prefix
of the sequence after it, and at most one message is added; so no message is
removed, replaced or reordered and every new message is placed last, at the
step in which it is sent or received.  And in a chat in which every element was
written by the script from a text without `<`, `appendMessage` with any sender
and any text without `<` leaves the list followed by exactly one message, the
one it rendered. -/
theorem message_list_append_only (B : Browser) (evs : List Event) (p p' : Page) (ev : Event)
    (hev : ∀ e ∈ evs, e.plain) (hrun : exec B evs Page.initial = some p)
    (hplain : ev.plain) (hstep : step B ev p = some p')
    (sender text : String) (s : State) (hs : Plain s) (ht : tagOpens text = 0) :
    (messages p.dom <+: messages p'.dom ∧
      messageList p.dom <+: messageList p'.dom ∧
      (messages p'.dom).length ≤ (messages p.dom).length + 1) ∧
    (∃ t new, appendMessage B sender (.str text) s = .ok t ∧
      messages t = messages s ++ [new] ∧ rendered new = bubble sender text ∧
      messageList t = messageList s ++ [bubble sender text]) := by
  obtain ⟨hc, hr, _⟩ := exec_within B evs Page.initial p hrun hev within_initial
  obtain ⟨⟨new, h1, h2⟩, _⟩ := step_effect B ev p p' hstep hplain hc hr
  refine ⟨⟨⟨new, h1.symm⟩, ⟨new.map rendered, ?_⟩, ?_⟩, ?_⟩
  · rw [messageList_append _ _ _ h1]
  · rw [h1, List.length_append]
    omega
  · obtain ⟨new, n1, n2⟩ := push_last s sender text
    exact ⟨_, new, appendMessage_plain B sender (.str text) text s hs rfl ht, n1, n2,
      (push_spec s sender text).2.1⟩

set_option maxRecDepth 100000 in
theorem message_list_append_only_witness :
    ∃ p p', exec Browser.sample [.load, .submit "a", .submit "b"] Page.initial = some p ∧
      step Browser.sample (.fetchSettles 1 (.resolved ⟨500, .unparsable⟩)) p = some p' ∧
      messageList p.dom = [bubble "bot" greetingText, bubble "user" "a", bubble "user" "b"] ∧
      messageList p'.dom =
        [bubble "bot" greetingText, bubble "user" "a", bubble "user" "b",
          bubble "bot" serverErrorText] ∧
      (messages p.dom <+: messages p'.dom ∧
        messageList p.dom <+: messageList p'.dom ∧
        (messages p'.dom).length ≤ (messages p.dom).length + 1) ∧
      (∃ t new, appendMessage Browser.sample "user" (.str "Hi") p.dom = .ok t ∧
        messages t = messages p.dom ++ [new] ∧ rendered new = bubble "user" "Hi" ∧
        messageList t = messageList p.dom ++ [bubble "user" "Hi"]) := by
  have hev : ∀ e ∈ [Event.load, .submit "a", .submit "b"], e.plain := by
    intro ev hev
    simp only [List.mem_cons, List.mem_singleton, List.not_mem_nil, or_false] at hev
    rcases hev with e | e | e <;> rw [e]
    · trivial
    · show tagOpens (jsTrim "a") = 0
      decide
    · show tagOpens (jsTrim "b") = 0
      decide
  have hp := (exec_within Browser.sample [.load, .submit "a", .submit "b"] Page.initial _ rfl
    hev within_initial).1
  have w := message_list_append_only Browser.sample [.load, .submit "a", .submit "b"] _ _
    (.fetchSettles 1 (.resolved ⟨500, .unparsable⟩)) hev rfl
    (by
      show tagOpens (botReply (.resolved ⟨500, .unparsable⟩)) = 0
      decide)
    rfl "user" "Hi" _ hp (by decide)
  exact ⟨_, _, rfl, rfl, by decide, by decide, w⟩

end ChatWidget
